import Mathlib

/-!
OptimalJerk: the cross-scenario jerk allocator of `opt.cc`

Shallow embedding of `computeOptimalJerksCross` and of the verification
arithmetic of `testScenario`.

Modelling conventions.
* A C++ `double` is modelled by an element of an arbitrary linearly ordered
  field `F` (exact arithmetic).  Every definition is computable, so it runs on
  `ℚ`; every theorem stated for all `F` holds in particular over `ℝ`.
  Rounding, infinities and NaN are outside the model.
* Decimal literals of the source are written as exact fractions:
  `1e-9` is `1 / 10 ^ 9`, `0.5` is `1 / 2`, `6.0` is `6`, `1e-3` is `1 / 10 ^ 3`.
* The two output references `jerk_ego`, `jerk_obs` are explicit state: the
  function takes their prior values and returns the flag with their new values.
-/

namespace OptimalJerk

/-- Values held by the two output references `double& jerk_ego`, `double& jerk_obs`. -/
structure JerkOut (F : Type) where
  jerk_ego : F
  jerk_obs : F

section Definitions

variable {F : Type} [LinearOrderedField F]

/-- The constant `eps = 1e-9` of `computeOptimalJerksCross` (opt.cc line 15). -/
def eps : F := 1 / 10 ^ 9

/-- Embedding of `computeOptimalJerksCross` (opt.cc lines 6-74).  `out` holds the
values of the references `jerk_ego`, `jerk_obs` before the call; the result is
the returned flag together with their values after the call. -/
def computeOptimalJerksCross
    (d_ego v_ego a_ego d_obs v_obs a_obs t_c t_hw w_agent : F)
    (out : JerkOut F) : Bool × JerkOut F :=
  if t_c ≤ eps ∨ w_agent < 0 then (false, out) else
  let t := t_c
  let hw := t_hw
  let t2 := t * t
  let t3 := t2 * t
  let K := t3 / 6
  let Kv := 1 / 2 * t2
  let trav_ego_const := v_ego * t + 1 / 2 * a_ego * t2
  let trav_obs_const := v_obs * t + 1 / 2 * a_obs * t2
  let v_obs_const := v_obs + a_obs * t
  let A := -K
  let B := K + Kv * hw
  let C_rhs := (d_obs - d_ego) - (trav_obs_const - trav_ego_const) - v_obs_const * hw
  if w_agent < eps then
    if abs B < eps then (false, out)
    else (true, { jerk_ego := 0, jerk_obs := C_rhs / B })
  else
    let denom := A * A + (B * B) / w_agent
    if abs denom < eps then (false, out)
    else
      let lambda := 2 * C_rhs / denom
      (true, { jerk_ego := lambda * A / 2, jerk_obs := lambda * B / (2 * w_agent) })

/-- Embedding of the verification part of `testScenario` (opt.cc lines 76-111),
without the console output: `none` on the "Failed to solve." path, otherwise
`(ego_remaining, obs_safe_margin, satisfied)`.  `out` stands for the
uninitialised locals `j_ego`, `j_obs`. -/
def testScenario
    (d_ego v_ego a_ego d_obs v_obs a_obs t_c t_hw w_agent : F)
    (out : JerkOut F) : Option (F × F × Bool) :=
  let r := computeOptimalJerksCross d_ego v_ego a_ego d_obs v_obs a_obs t_c t_hw w_agent out
  let ok := r.1
  let j_ego := r.2.jerk_ego
  let j_obs := r.2.jerk_obs
  if ok then
    let t := t_c
    let trav_ego := v_ego * t + 1 / 2 * a_ego * t * t + (1 / 6) * j_ego * t * t * t
    let trav_obs := v_obs * t + 1 / 2 * a_obs * t * t + (1 / 6) * j_obs * t * t * t
    let v_obs_t := v_obs + a_obs * t + 1 / 2 * j_obs * t * t
    let ego_remaining := d_ego - trav_ego
    let obs_safe_margin := d_obs - trav_obs - v_obs_t * t_hw
    let satisfied : Bool := decide (ego_remaining ≤ obs_safe_margin + 1 / 10 ^ 3)
    some (ego_remaining, obs_safe_margin, satisfied)
  else none

/-- The horizon `t_c` that `main` computes for its scenario (opt.cc lines 118-128):
the mean of the two constant-speed arrival times, with `d = 30` and `v = 8`. -/
def main_t_c : F :=
  let d_ego : F := 30
  let v_ego : F := 8
  let d_obs : F := 30
  let v_obs : F := 8
  let t_ego0 := d_ego / max v_ego (1 / 10)
  let t_obs0 := d_obs / max v_obs (1 / 10)
  (t_ego0 + t_obs0) / 2

/-- The coefficient `A = -K`, `K = t^3 / 6`, of `jerk_ego` (opt.cc lines 21-24, 51). -/
def coefA (t_c : F) : F := -(t_c * t_c * t_c / 6)

/-- The coefficient `B = K + Kv * hw`, `Kv = 0.5 * t^2`, of `jerk_obs`
(opt.cc lines 21-25, 52). -/
def coefB (t_c t_hw : F) : F := t_c * t_c * t_c / 6 + 1 / 2 * (t_c * t_c) * t_hw

/-- The right-hand side `C_rhs` of the constraint (opt.cc lines 28-30, 53-55). -/
def coefC (d_ego v_ego a_ego d_obs v_obs a_obs t_c t_hw : F) : F :=
  (d_obs - d_ego)
    - ((v_obs * t_c + 1 / 2 * a_obs * (t_c * t_c)) - (v_ego * t_c + 1 / 2 * a_ego * (t_c * t_c)))
    - (v_obs + a_obs * t_c) * t_hw

/-- The local `denom = A * A + (B * B) / w_agent` (opt.cc line 66). -/
def denomOf (A B w : F) : F := A * A + (B * B) / w

/-- The general-branch formula (opt.cc lines 66, 69-71) as a function of the
coefficients and of the weight: `lambda = 2 C / denom`,
`jerk_ego = lambda A / 2`, `jerk_obs = lambda B / (2 w)`. -/
def generalBranch (A B C w : F) : JerkOut F :=
  { jerk_ego := 2 * C / denomOf A B w * A / 2,
    jerk_obs := 2 * C / denomOf A B w * B / (2 * w) }

/-- The degenerate-weight result (opt.cc lines 60-61): `jerk_ego = 0`, `jerk_obs = C / B`. -/
def degenerateBranch (B C : F) : JerkOut F :=
  { jerk_ego := 0, jerk_obs := C / B }

/-- The displacement of an agent over `[0, t]` under constant jerk, as
`testScenario` evaluates it (opt.cc lines 94-95). -/
def traveled (v a j t : F) : F := v * t + 1 / 2 * a * t * t + (1 / 6) * j * t * t * t

/-- The obstacle's speed at `t` under constant jerk (opt.cc line 96). -/
def speedAt (v a j t : F) : F := v + a * t + 1 / 2 * j * t * t

/-- The objective `jerk_ego^2 + w_agent * jerk_obs^2` (opt.cc line 65). -/
def cost (w x y : F) : F := x ^ 2 + w * y ^ 2

end Definitions

/-- The division sites of `computeOptimalJerksCross`:
`gainK` is `t3 / 6.0` (line 24), `degenerate` is `C_rhs / B` (line 61),
`denom` is `(B * B) / w_agent` (line 66), `lambda` is `2.0 * C_rhs / denom`
(line 69), `jerkEgo` is `lambda * A / 2.0` (line 70) and `jerkObs` is
`lambda * B / (2.0 * w_agent)` (line 71). -/
inductive DivSite where
  | gainK
  | degenerate
  | denom
  | lambda
  | jerkEgo
  | jerkObs

section TracedDefinition

variable {F : Type} [LinearOrderedField F]

/-- Instrumented embedding of `computeOptimalJerksCross` (opt.cc lines 6-74): the
same control flow and arithmetic, returning besides the result the list of the
divisions executed on the path taken, in execution order, each as its site and
the value of its divisor. -/
def computeOptimalJerksCrossTraced
    (d_ego v_ego a_ego d_obs v_obs a_obs t_c t_hw w_agent : F)
    (out : JerkOut F) : (Bool × JerkOut F) × List (DivSite × F) :=
  if t_c ≤ eps ∨ w_agent < 0 then ((false, out), []) else
  let t := t_c
  let hw := t_hw
  let t2 := t * t
  let t3 := t2 * t
  let K := t3 / 6
  let trace1 : List (DivSite × F) := [(DivSite.gainK, 6)]
  let Kv := 1 / 2 * t2
  let trav_ego_const := v_ego * t + 1 / 2 * a_ego * t2
  let trav_obs_const := v_obs * t + 1 / 2 * a_obs * t2
  let v_obs_const := v_obs + a_obs * t
  let A := -K
  let B := K + Kv * hw
  let C_rhs := (d_obs - d_ego) - (trav_obs_const - trav_ego_const) - v_obs_const * hw
  if w_agent < eps then
    if abs B < eps then ((false, out), trace1)
    else ((true, { jerk_ego := 0, jerk_obs := C_rhs / B }),
      trace1 ++ [(DivSite.degenerate, B)])
  else
    let denom := A * A + (B * B) / w_agent
    let trace2 := trace1 ++ [(DivSite.denom, w_agent)]
    if abs denom < eps then ((false, out), trace2)
    else
      let lambda := 2 * C_rhs / denom
      ((true, { jerk_ego := lambda * A / 2, jerk_obs := lambda * B / (2 * w_agent) }),
        trace2 ++ [(DivSite.lambda, denom), (DivSite.jerkEgo, 2),
          (DivSite.jerkObs, 2 * w_agent)])

end TracedDefinition

section Lemmas

variable {F : Type} [LinearOrderedField F]

theorem eps_pos : (0 : F) < eps := by
  unfold eps
  positivity

/-- The body of `computeOptimalJerksCross`, with its locals named. -/
theorem compute_eq (d_ego v_ego a_ego d_obs v_obs a_obs t_c t_hw w_agent : F)
    (out : JerkOut F) :
    computeOptimalJerksCross d_ego v_ego a_ego d_obs v_obs a_obs t_c t_hw w_agent out =
      if t_c ≤ eps ∨ w_agent < 0 then (false, out)
      else if w_agent < eps then
        if abs (coefB t_c t_hw) < eps then (false, out)
        else (true, degenerateBranch (coefB t_c t_hw)
          (coefC d_ego v_ego a_ego d_obs v_obs a_obs t_c t_hw))
      else if abs (denomOf (coefA t_c) (coefB t_c t_hw) w_agent) < eps then (false, out)
      else (true, generalBranch (coefA t_c) (coefB t_c t_hw)
          (coefC d_ego v_ego a_ego d_obs v_obs a_obs t_c t_hw) w_agent) := by
  rfl

/-- What a successful call has checked and written. -/
theorem success_cases (d_ego v_ego a_ego d_obs v_obs a_obs t_c t_hw w_agent : F)
    (out : JerkOut F)
    (h : (computeOptimalJerksCross d_ego v_ego a_ego d_obs v_obs a_obs t_c t_hw w_agent out).1
      = true) :
    eps < t_c ∧ 0 ≤ w_agent ∧
    ((w_agent < eps ∧ eps ≤ abs (coefB t_c t_hw) ∧
        (computeOptimalJerksCross d_ego v_ego a_ego d_obs v_obs a_obs t_c t_hw w_agent out).2
          = degenerateBranch (coefB t_c t_hw)
              (coefC d_ego v_ego a_ego d_obs v_obs a_obs t_c t_hw)) ∨
     (eps ≤ w_agent ∧ eps ≤ abs (denomOf (coefA t_c) (coefB t_c t_hw) w_agent) ∧
        (computeOptimalJerksCross d_ego v_ego a_ego d_obs v_obs a_obs t_c t_hw w_agent out).2
          = generalBranch (coefA t_c) (coefB t_c t_hw)
              (coefC d_ego v_ego a_ego d_obs v_obs a_obs t_c t_hw) w_agent)) := by
  rw [compute_eq] at h ⊢
  by_cases h1 : t_c ≤ eps ∨ w_agent < 0
  · simp [h1] at h
  · rw [if_neg h1] at h ⊢
    have h1a : eps < t_c := not_le.mp (fun hc => h1 (Or.inl hc))
    have h1b : 0 ≤ w_agent := not_lt.mp (fun hc => h1 (Or.inr hc))
    refine ⟨h1a, h1b, ?_⟩
    by_cases h2 : w_agent < eps
    · rw [if_pos h2] at h ⊢
      by_cases h3 : abs (coefB t_c t_hw) < eps
      · simp [h3] at h
      · rw [if_neg h3]
        exact Or.inl ⟨h2, not_lt.mp h3, rfl⟩
    · rw [if_neg h2] at h ⊢
      by_cases h3 : abs (denomOf (coefA t_c) (coefB t_c t_hw) w_agent) < eps
      · simp [h3] at h
      · rw [if_neg h3]
        exact Or.inr ⟨not_lt.mp h2, not_lt.mp h3, rfl⟩

theorem coefA_neg {t_c : F} (h : eps < t_c) : coefA t_c < 0 := by
  have ht : (0 : F) < t_c := lt_trans eps_pos h
  unfold coefA
  have : 0 < t_c * t_c * t_c / 6 := by positivity
  linarith

theorem denomOf_pos {A : F} (B : F) {w : F} (hA : A ≠ 0) (hw : 0 < w) :
    0 < denomOf A B w := by
  unfold denomOf
  have h1 : 0 < A * A := mul_self_pos.mpr hA
  have h2 : 0 ≤ B * B / w := div_nonneg (mul_self_nonneg B) hw.le
  linarith

theorem ne_zero_of_eps_le_abs {x : F} (h : eps ≤ abs x) : x ≠ 0 := by
  intro hx
  rw [hx, abs_zero] at h
  exact absurd h (not_le.mpr eps_pos)

/-- The general-branch pair lies on the constraint line. -/
theorem generalBranch_constraint (A B C : F) {w : F} (hw : w ≠ 0)
    (hd : denomOf A B w ≠ 0) :
    A * (generalBranch A B C w).jerk_ego + B * (generalBranch A B C w).jerk_obs = C := by
  simp only [generalBranch]
  have e : A * (2 * C / denomOf A B w * A / 2) + B * (2 * C / denomOf A B w * B / (2 * w))
      = C * (A * A + B * B / w) / denomOf A B w := by
    field_simp
    ring
  rw [e]
  change C * denomOf A B w / denomOf A B w = C
  field_simp

/-- The degenerate-branch pair lies on the constraint line. -/
theorem degenerateBranch_constraint (A : F) {B : F} (C : F) (hB : B ≠ 0) :
    A * (degenerateBranch B C).jerk_ego + B * (degenerateBranch B C).jerk_obs = C := by
  simp only [degenerateBranch]
  field_simp

/-- A successful call returns a pair on the constraint line `A x + B y = C`. -/
theorem success_constraint (d_ego v_ego a_ego d_obs v_obs a_obs t_c t_hw w_agent : F)
    (out : JerkOut F)
    (h : (computeOptimalJerksCross d_ego v_ego a_ego d_obs v_obs a_obs t_c t_hw w_agent out).1
      = true) :
    coefA t_c *
        (computeOptimalJerksCross d_ego v_ego a_ego d_obs v_obs a_obs t_c t_hw w_agent out).2.jerk_ego
      + coefB t_c t_hw *
        (computeOptimalJerksCross d_ego v_ego a_ego d_obs v_obs a_obs t_c t_hw w_agent out).2.jerk_obs
      = coefC d_ego v_ego a_ego d_obs v_obs a_obs t_c t_hw := by
  obtain ⟨_, hw0, hdeg | hgen⟩ := success_cases _ _ _ _ _ _ _ _ _ _ h
  · obtain ⟨_, hB, hr⟩ := hdeg
    rw [hr]
    exact degenerateBranch_constraint _ _ (ne_zero_of_eps_le_abs hB)
  · obtain ⟨hw, hd, hr⟩ := hgen
    rw [hr]
    exact generalBranch_constraint _ _ _ (lt_of_lt_of_le eps_pos hw).ne.symm
      (ne_zero_of_eps_le_abs hd)

/-- The margin equation of `testScenario` is the linear equation `A x + B y = C`. -/
theorem tight_iff (d_ego v_ego a_ego d_obs v_obs a_obs t_c t_hw x y : F) :
    d_ego - traveled v_ego a_ego x t_c
        = d_obs - traveled v_obs a_obs y t_c - speedAt v_obs a_obs y t_c * t_hw
      ↔ coefA t_c * x + coefB t_c t_hw * y
        = coefC d_ego v_ego a_ego d_obs v_obs a_obs t_c t_hw := by
  unfold traveled speedAt coefA coefB coefC
  constructor <;> intro h <;> linear_combination h

/-- The result of `testScenario` after a successful call, with its locals named. -/
theorem testScenario_eq_of_success
    (d_ego v_ego a_ego d_obs v_obs a_obs t_c t_hw w_agent : F) (out : JerkOut F)
    (h : (computeOptimalJerksCross d_ego v_ego a_ego d_obs v_obs a_obs t_c t_hw w_agent out).1
      = true) :
    testScenario d_ego v_ego a_ego d_obs v_obs a_obs t_c t_hw w_agent out =
      some
        (d_ego - traveled v_ego a_ego
          (computeOptimalJerksCross d_ego v_ego a_ego d_obs v_obs a_obs t_c t_hw w_agent
            out).2.jerk_ego t_c,
         d_obs - traveled v_obs a_obs
          (computeOptimalJerksCross d_ego v_ego a_ego d_obs v_obs a_obs t_c t_hw w_agent
            out).2.jerk_obs t_c
          - speedAt v_obs a_obs
          (computeOptimalJerksCross d_ego v_ego a_ego d_obs v_obs a_obs t_c t_hw w_agent
            out).2.jerk_obs t_c * t_hw,
         decide (d_ego - traveled v_ego a_ego
          (computeOptimalJerksCross d_ego v_ego a_ego d_obs v_obs a_obs t_c t_hw w_agent
            out).2.jerk_ego t_c ≤
          d_obs - traveled v_obs a_obs
          (computeOptimalJerksCross d_ego v_ego a_ego d_obs v_obs a_obs t_c t_hw w_agent
            out).2.jerk_obs t_c
          - speedAt v_obs a_obs
          (computeOptimalJerksCross d_ego v_ego a_ego d_obs v_obs a_obs t_c t_hw w_agent
            out).2.jerk_obs t_c * t_hw + 1 / 10 ^ 3)) := by
  unfold testScenario
  simp only [h, if_true]
  rfl

/-- The general-branch pair is stationary: `jerk_ego = mu * A` and
`w * jerk_obs = mu * B` for the multiplier `mu = C / denom`. -/
theorem generalBranch_stationary (A B C : F) {w : F} (hw : w ≠ 0) :
    (generalBranch A B C w).jerk_ego = C / denomOf A B w * A ∧
    w * (generalBranch A B C w).jerk_obs = C / denomOf A B w * B := by
  simp only [generalBranch]
  constructor
  · ring
  · rw [div_eq_mul_inv (2 * C) (denomOf A B w), div_eq_mul_inv C (denomOf A B w)]
    generalize (denomOf A B w)⁻¹ = d
    field_simp
    ring

/-- The cost gap between a feasible pair and a feasible stationary pair. -/
theorem cost_gap (A B C w x0 y0 x y mu : F)
    (h0 : A * x0 + B * y0 = C) (h : A * x + B * y = C)
    (hx : x0 = mu * A) (hy : w * y0 = mu * B) :
    cost w x y - cost w x0 y0 = (x - x0) ^ 2 + w * (y - y0) ^ 2 := by
  unfold cost
  linear_combination 2 * (x - x0) * hx + 2 * (y - y0) * hy + 2 * mu * (h - h0)

theorem sq_gap_pos {w x0 y0 x y : F} (hw : 0 < w) (hne : x ≠ x0 ∨ y ≠ y0) :
    0 < (x - x0) ^ 2 + w * (y - y0) ^ 2 := by
  rcases hne with hx | hy
  · have h1 : 0 < (x - x0) ^ 2 := by
      have : x - x0 ≠ 0 := sub_ne_zero.mpr hx
      positivity
    have h2 : 0 ≤ w * (y - y0) ^ 2 := by positivity
    linarith
  · have h1 : 0 ≤ (x - x0) ^ 2 := by positivity
    have h2 : 0 < w * (y - y0) ^ 2 := by
      have : y - y0 ≠ 0 := sub_ne_zero.mpr hy
      positivity
    linarith

/-- For a positive weight and `A ≠ 0` the general-branch pair is the strict
minimizer of the cost on the constraint line. -/
theorem generalBranch_strict_min {A : F} (B C : F) {w : F} (hA : A ≠ 0) (hw : 0 < w)
    (x y : F) (h : A * x + B * y = C)
    (hne : x ≠ (generalBranch A B C w).jerk_ego ∨ y ≠ (generalBranch A B C w).jerk_obs) :
    cost w (generalBranch A B C w).jerk_ego (generalBranch A B C w).jerk_obs < cost w x y := by
  have hd : denomOf A B w ≠ 0 := (denomOf_pos B hA hw).ne.symm
  have h0 := generalBranch_constraint A B C hw.ne.symm hd
  obtain ⟨hx, hy⟩ := generalBranch_stationary A B C hw.ne.symm
  have hg := cost_gap A B C w _ _ x y _ h0 h hx hy
  have hp := sq_gap_pos hw hne
  linarith

/-- The simplified closed form of the general-branch pair. -/
theorem generalBranch_closed {A : F} (B C : F) {w : F} (hA : A ≠ 0) (hw : 0 < w) :
    (generalBranch A B C w).jerk_ego = C * A * w / (w * A ^ 2 + B ^ 2) ∧
    (generalBranch A B C w).jerk_obs = C * B / (w * A ^ 2 + B ^ 2) := by
  have hD : 0 < w * A ^ 2 + B ^ 2 := by positivity
  have hd : denomOf A B w = (w * A ^ 2 + B ^ 2) / w := by
    unfold denomOf
    field_simp
    ring
  simp only [generalBranch, hd]
  constructor <;> field_simp <;> ring

theorem abs_generalBranch {A : F} (B C : F) {w : F} (hA : A ≠ 0) (hw : 0 < w) :
    abs (generalBranch A B C w).jerk_ego = abs (C * A) * (w / (w * A ^ 2 + B ^ 2)) ∧
    abs (generalBranch A B C w).jerk_obs = abs (C * B) / (w * A ^ 2 + B ^ 2) := by
  have hD : 0 < w * A ^ 2 + B ^ 2 := by positivity
  obtain ⟨h1, h2⟩ := generalBranch_closed B C hA hw
  rw [h1, h2]
  constructor
  · rw [mul_div_assoc, abs_mul (C * A), abs_of_nonneg (div_nonneg hw.le hD.le)]
  · rw [abs_div, abs_of_pos hD]

/-- Both general-branch shares are monotone in the weight. -/
theorem generalBranch_mono {A : F} (B C : F) {w1 w2 : F} (hA : A ≠ 0) (hw1 : 0 < w1)
    (h12 : w1 ≤ w2) :
    abs (generalBranch A B C w2).jerk_obs ≤ abs (generalBranch A B C w1).jerk_obs ∧
    abs (generalBranch A B C w1).jerk_ego ≤ abs (generalBranch A B C w2).jerk_ego := by
  have hw2 : 0 < w2 := lt_of_lt_of_le hw1 h12
  have hD1 : 0 < w1 * A ^ 2 + B ^ 2 := by positivity
  have hD2 : 0 < w2 * A ^ 2 + B ^ 2 := by positivity
  have hA2 : 0 ≤ A ^ 2 := by positivity
  have hB2 : 0 ≤ B ^ 2 := by positivity
  rw [(abs_generalBranch B C hA hw1).1, (abs_generalBranch B C hA hw1).2,
    (abs_generalBranch B C hA hw2).1, (abs_generalBranch B C hA hw2).2]
  constructor
  · rw [div_le_div_iff₀ hD2 hD1]
    apply mul_le_mul_of_nonneg_left _ (abs_nonneg _)
    nlinarith
  · apply mul_le_mul_of_nonneg_left _ (abs_nonneg _)
    rw [div_le_div_iff₀ hD1 hD2]
    nlinarith

/-- The obstacle's general-branch share never exceeds its degenerate-branch share. -/
theorem generalBranch_le_degenerate {A B : F} (C : F) {w : F} (hA : A ≠ 0) (hB : B ≠ 0)
    (hw : 0 < w) :
    abs (generalBranch A B C w).jerk_obs ≤ abs (degenerateBranch B C).jerk_obs := by
  have hD : 0 < w * A ^ 2 + B ^ 2 := by positivity
  have hBp : 0 < abs B := abs_pos.mpr hB
  have hA2 : 0 ≤ w * A ^ 2 := by positivity
  rw [(abs_generalBranch B C hA hw).2]
  simp only [degenerateBranch]
  rw [abs_div, abs_mul, div_le_div_iff₀ hD hBp, mul_assoc]
  apply mul_le_mul_of_nonneg_left _ (abs_nonneg _)
  have : abs B * abs B = B ^ 2 := by rw [abs_mul_abs_self, sq]
  linarith

/-- A failing call returns the prior values of the two outputs. -/
theorem failure_keeps_out (d_ego v_ego a_ego d_obs v_obs a_obs t_c t_hw w_agent : F)
    (out : JerkOut F)
    (h : (computeOptimalJerksCross d_ego v_ego a_ego d_obs v_obs a_obs t_c t_hw w_agent out).1
      = false) :
    (computeOptimalJerksCross d_ego v_ego a_ego d_obs v_obs a_obs t_c t_hw w_agent out).2
      = out := by
  rw [compute_eq] at h ⊢
  by_cases h1 : t_c ≤ eps ∨ w_agent < 0
  · rw [if_pos h1]
  · rw [if_neg h1] at h ⊢
    by_cases h2 : w_agent < eps
    · rw [if_pos h2] at h ⊢
      by_cases h3 : abs (coefB t_c t_hw) < eps
      · rw [if_pos h3]
      · rw [if_neg h3] at h
        simp at h
    · rw [if_neg h2] at h ⊢
      by_cases h3 : abs (denomOf (coefA t_c) (coefB t_c t_hw) w_agent) < eps
      · rw [if_pos h3]
      · rw [if_neg h3] at h
        simp at h

/-- For a positive weight and `A ≠ 0` the general-branch pair attains the
minimum of the cost on the constraint line. -/
theorem generalBranch_min {A : F} (B C : F) {w : F} (hA : A ≠ 0) (hw : 0 < w)
    (x y : F) (h : A * x + B * y = C) :
    cost w (generalBranch A B C w).jerk_ego (generalBranch A B C w).jerk_obs ≤ cost w x y := by
  have hd : denomOf A B w ≠ 0 := (denomOf_pos B hA hw).ne.symm
  have h0 := generalBranch_constraint A B C hw.ne.symm hd
  obtain ⟨hx, hy⟩ := generalBranch_stationary A B C hw.ne.symm
  have hg := cost_gap A B C w _ _ x y _ h0 h hx hy
  have hp : 0 ≤ (x - (generalBranch A B C w).jerk_ego) ^ 2
      + w * (y - (generalBranch A B C w).jerk_obs) ^ 2 := by positivity
  linarith

/-- What a call that fails behind the first guard has found. -/
theorem failure_cases (d_ego v_ego a_ego d_obs v_obs a_obs t_c t_hw w_agent : F)
    (out : JerkOut F) (ht : eps < t_c) (hw0 : 0 ≤ w_agent)
    (h : (computeOptimalJerksCross d_ego v_ego a_ego d_obs v_obs a_obs t_c t_hw w_agent out).1
      = false) :
    (w_agent < eps ∧ abs (coefB t_c t_hw) < eps) ∨
    (eps ≤ w_agent ∧ abs (denomOf (coefA t_c) (coefB t_c t_hw) w_agent) < eps) := by
  rw [compute_eq] at h
  have h1 : ¬ (t_c ≤ eps ∨ w_agent < 0) := by
    rintro (h1 | h1)
    · exact absurd h1 (not_le.mpr ht)
    · exact absurd h1 (not_lt.mpr hw0)
  rw [if_neg h1] at h
  by_cases h2 : w_agent < eps
  · rw [if_pos h2] at h
    by_cases h3 : abs (coefB t_c t_hw) < eps
    · exact Or.inl ⟨h2, h3⟩
    · rw [if_neg h3] at h
      simp at h
  · rw [if_neg h2] at h
    by_cases h3 : abs (denomOf (coefA t_c) (coefB t_c t_hw) w_agent) < eps
    · exact Or.inr ⟨not_lt.mp h2, h3⟩
    · rw [if_neg h3] at h
      simp at h

theorem coefB_pos {t_c t_hw : F} (ht : eps < t_c) (hhw : 0 ≤ t_hw) : 0 < coefB t_c t_hw := by
  have ht0 : (0 : F) < t_c := lt_trans eps_pos ht
  unfold coefB
  have h1 : 0 < t_c * t_c * t_c / 6 := by positivity
  have h2 : 0 ≤ 1 / 2 * (t_c * t_c) * t_hw := by positivity
  linarith

/-- With a non-negative headway a successful call returns `jerk_ego = k1 * C` and
`jerk_obs = k2 * C` with `k1 <= 0 < k2`, and `k1 < 0` in the general branch. -/
theorem success_direction (d_ego v_ego a_ego d_obs v_obs a_obs t_c t_hw w_agent : F)
    (out : JerkOut F) (hhw : 0 ≤ t_hw)
    (h : (computeOptimalJerksCross d_ego v_ego a_ego d_obs v_obs a_obs t_c t_hw w_agent out).1
      = true) :
    ∃ k1 k2 : F, k1 ≤ 0 ∧ 0 < k2 ∧ (eps ≤ w_agent → k1 < 0) ∧
      (computeOptimalJerksCross d_ego v_ego a_ego d_obs v_obs a_obs t_c t_hw w_agent out).2.jerk_ego
        = k1 * coefC d_ego v_ego a_ego d_obs v_obs a_obs t_c t_hw ∧
      (computeOptimalJerksCross d_ego v_ego a_ego d_obs v_obs a_obs t_c t_hw w_agent out).2.jerk_obs
        = k2 * coefC d_ego v_ego a_ego d_obs v_obs a_obs t_c t_hw := by
  obtain ⟨ht, _, hdeg | hgen⟩ := success_cases _ _ _ _ _ _ _ _ _ _ h
  · obtain ⟨hw, _, hr⟩ := hdeg
    have hB := coefB_pos ht hhw
    refine ⟨0, 1 / coefB t_c t_hw, le_refl _, by positivity,
      fun hc => absurd hw (not_lt.mpr hc), ?_, ?_⟩
    · rw [hr]
      simp [degenerateBranch]
    · rw [hr]
      simp only [degenerateBranch]
      ring
  · obtain ⟨hw, _, hr⟩ := hgen
    have hwpos : 0 < w_agent := lt_of_lt_of_le eps_pos hw
    have hAneg := coefA_neg ht
    have hB := coefB_pos ht hhw
    have hD : 0 < w_agent * coefA t_c ^ 2 + coefB t_c t_hw ^ 2 := by positivity
    obtain ⟨e1, e2⟩ := generalBranch_closed (coefB t_c t_hw)
      (coefC d_ego v_ego a_ego d_obs v_obs a_obs t_c t_hw) hAneg.ne hwpos
    have hk1 : coefA t_c * w_agent / (w_agent * coefA t_c ^ 2 + coefB t_c t_hw ^ 2) < 0 :=
      div_neg_of_neg_of_pos (mul_neg_of_neg_of_pos hAneg hwpos) hD
    refine ⟨coefA t_c * w_agent / (w_agent * coefA t_c ^ 2 + coefB t_c t_hw ^ 2),
      coefB t_c t_hw / (w_agent * coefA t_c ^ 2 + coefB t_c t_hw ^ 2),
      hk1.le, div_pos hB hD, fun _ => hk1, ?_, ?_⟩
    · rw [hr, e1]
      ring
    · rw [hr, e2]
      ring

/-- The body of `computeOptimalJerksCrossTraced`, with its locals named. -/
theorem traced_eq (d_ego v_ego a_ego d_obs v_obs a_obs t_c t_hw w_agent : F)
    (out : JerkOut F) :
    computeOptimalJerksCrossTraced d_ego v_ego a_ego d_obs v_obs a_obs t_c t_hw w_agent out =
      if t_c ≤ eps ∨ w_agent < 0 then ((false, out), [])
      else if w_agent < eps then
        if abs (coefB t_c t_hw) < eps then ((false, out), [(DivSite.gainK, 6)])
        else ((true, degenerateBranch (coefB t_c t_hw)
            (coefC d_ego v_ego a_ego d_obs v_obs a_obs t_c t_hw)),
          [(DivSite.gainK, 6), (DivSite.degenerate, coefB t_c t_hw)])
      else if abs (denomOf (coefA t_c) (coefB t_c t_hw) w_agent) < eps then
        ((false, out), [(DivSite.gainK, 6), (DivSite.denom, w_agent)])
      else ((true, generalBranch (coefA t_c) (coefB t_c t_hw)
            (coefC d_ego v_ego a_ego d_obs v_obs a_obs t_c t_hw) w_agent),
          [(DivSite.gainK, 6), (DivSite.denom, w_agent),
            (DivSite.lambda, denomOf (coefA t_c) (coefB t_c t_hw) w_agent),
            (DivSite.jerkEgo, 2), (DivSite.jerkObs, 2 * w_agent)]) := by
  rfl

theorem denomOf_nonneg (A B : F) {w : F} (hw : 0 < w) : 0 ≤ denomOf A B w := by
  unfold denomOf
  have h1 : 0 ≤ A * A := mul_self_nonneg A
  have h2 : 0 ≤ B * B / w := div_nonneg (mul_self_nonneg B) hw.le
  linarith

theorem eps_le_sixth : (eps : F) ≤ 1 / 6 := by
  unfold eps
  rw [div_le_div_iff₀ (by positivity) (by positivity)]
  norm_num

theorem eps_le_thirtysixth : (eps : F) ≤ 1 / 36 := by
  unfold eps
  rw [div_le_div_iff₀ (by positivity) (by positivity)]
  norm_num

theorem coefB_ge_sixth {t_c t_hw : F} (ht : 1 ≤ t_c) (hhw : 0 ≤ t_hw) :
    1 / 6 ≤ coefB t_c t_hw := by
  have ht0 : (0 : F) ≤ t_c := le_trans zero_le_one ht
  have h2 : 1 ≤ t_c * t_c := by nlinarith
  have h3 : 1 ≤ t_c * t_c * t_c := by nlinarith
  have h4 : 0 ≤ 1 / 2 * (t_c * t_c) * t_hw := by positivity
  unfold coefB
  linarith

theorem denomOf_ge_thirtysixth {t_c : F} (B : F) {w : F} (ht : 1 ≤ t_c) (hw : 0 < w) :
    1 / 36 ≤ denomOf (coefA t_c) B w := by
  have ht0 : (0 : F) ≤ t_c := le_trans zero_le_one ht
  have h2 : 1 ≤ t_c * t_c := by nlinarith
  have h3 : 1 ≤ t_c * t_c * t_c := by nlinarith
  have h4 : 0 ≤ B * B / w := div_nonneg (mul_self_nonneg B) hw.le
  have h5 : 1 ≤ (t_c * t_c * t_c) * (t_c * t_c * t_c) := by nlinarith
  unfold denomOf coefA
  have e : -(t_c * t_c * t_c / 6) * -(t_c * t_c * t_c / 6)
      = (t_c * t_c * t_c) * (t_c * t_c * t_c) / 36 := by ring
  rw [e]
  linarith

end Lemmas

section Claims

variable {F : Type} [LinearOrderedField F]

/-- C1 (constraint satisfaction). Whenever `computeOptimalJerksCross` returns
true, the returned jerks satisfy `A * jerk_ego + B * jerk_obs = C`, hence make
the safety constraint tight, `d_ego - traveled_ego = d_obs - traveled_obs -
v_obs(t_c) * t_hw`, and `testScenario` reports two equal margins and
`satisfied = true`. -/
theorem constraint_satisfaction
    (d_ego v_ego a_ego d_obs v_obs a_obs t_c t_hw w_agent : F) (out : JerkOut F)
    (h : (computeOptimalJerksCross d_ego v_ego a_ego d_obs v_obs a_obs t_c t_hw w_agent out).1
      = true) :
    coefA t_c *
        (computeOptimalJerksCross d_ego v_ego a_ego d_obs v_obs a_obs t_c t_hw w_agent out).2.jerk_ego
      + coefB t_c t_hw *
        (computeOptimalJerksCross d_ego v_ego a_ego d_obs v_obs a_obs t_c t_hw w_agent out).2.jerk_obs
      = coefC d_ego v_ego a_ego d_obs v_obs a_obs t_c t_hw ∧
    d_ego - traveled v_ego a_ego
        (computeOptimalJerksCross d_ego v_ego a_ego d_obs v_obs a_obs t_c t_hw w_agent out).2.jerk_ego
        t_c
      = d_obs - traveled v_obs a_obs
        (computeOptimalJerksCross d_ego v_ego a_ego d_obs v_obs a_obs t_c t_hw w_agent out).2.jerk_obs
        t_c
        - speedAt v_obs a_obs
        (computeOptimalJerksCross d_ego v_ego a_ego d_obs v_obs a_obs t_c t_hw w_agent out).2.jerk_obs
        t_c * t_hw ∧
    ∃ m : F,
      testScenario d_ego v_ego a_ego d_obs v_obs a_obs t_c t_hw w_agent out = some (m, m, true) := by
  have hc := success_constraint d_ego v_ego a_ego d_obs v_obs a_obs t_c t_hw w_agent out h
  have ht := (tight_iff d_ego v_ego a_ego d_obs v_obs a_obs t_c t_hw _ _).mpr hc
  refine ⟨hc, ht, ?_⟩
  refine ⟨d_ego - traveled v_ego a_ego
    (computeOptimalJerksCross d_ego v_ego a_ego d_obs v_obs a_obs t_c t_hw w_agent out).2.jerk_ego
    t_c, ?_⟩
  rw [testScenario_eq_of_success _ _ _ _ _ _ _ _ _ _ h, ← ht]
  simp

/-- C1 at the harness scenario `d = 30, v = 8, a = 0, t_c = 3.75, t_hw = 1`
for the four weights `0, 0.25, 0.5, 1` of `main`. -/
theorem constraint_satisfaction_witness :
    ((computeOptimalJerksCross (30 : ℚ) 8 0 30 8 0 (15 / 4) 1 0 ⟨0, 0⟩).1 = true ∧
      ∃ m : ℚ, testScenario (30 : ℚ) 8 0 30 8 0 (15 / 4) 1 0 ⟨0, 0⟩ = some (m, m, true)) ∧
    ((computeOptimalJerksCross (30 : ℚ) 8 0 30 8 0 (15 / 4) 1 (1 / 4) ⟨0, 0⟩).1 = true ∧
      ∃ m : ℚ, testScenario (30 : ℚ) 8 0 30 8 0 (15 / 4) 1 (1 / 4) ⟨0, 0⟩ = some (m, m, true)) ∧
    ((computeOptimalJerksCross (30 : ℚ) 8 0 30 8 0 (15 / 4) 1 (1 / 2) ⟨0, 0⟩).1 = true ∧
      ∃ m : ℚ, testScenario (30 : ℚ) 8 0 30 8 0 (15 / 4) 1 (1 / 2) ⟨0, 0⟩ = some (m, m, true)) ∧
    ((computeOptimalJerksCross (30 : ℚ) 8 0 30 8 0 (15 / 4) 1 1 ⟨0, 0⟩).1 = true ∧
      ∃ m : ℚ, testScenario (30 : ℚ) 8 0 30 8 0 (15 / 4) 1 1 ⟨0, 0⟩ = some (m, m, true)) := by
  have h0 : (computeOptimalJerksCross (30 : ℚ) 8 0 30 8 0 (15 / 4) 1 0 ⟨0, 0⟩).1 = true := by
    norm_num [computeOptimalJerksCross, eps, abs_lt]
  have h1 : (computeOptimalJerksCross (30 : ℚ) 8 0 30 8 0 (15 / 4) 1 (1 / 4) ⟨0, 0⟩).1 = true := by
    norm_num [computeOptimalJerksCross, eps, abs_lt]
  have h2 : (computeOptimalJerksCross (30 : ℚ) 8 0 30 8 0 (15 / 4) 1 (1 / 2) ⟨0, 0⟩).1 = true := by
    norm_num [computeOptimalJerksCross, eps, abs_lt]
  have h3 : (computeOptimalJerksCross (30 : ℚ) 8 0 30 8 0 (15 / 4) 1 1 ⟨0, 0⟩).1 = true := by
    norm_num [computeOptimalJerksCross, eps, abs_lt]
  exact ⟨⟨h0, (constraint_satisfaction _ _ _ _ _ _ _ _ _ _ h0).2.2⟩,
    ⟨h1, (constraint_satisfaction _ _ _ _ _ _ _ _ _ _ h1).2.2⟩,
    ⟨h2, (constraint_satisfaction _ _ _ _ _ _ _ _ _ _ h2).2.2⟩,
    ⟨h3, (constraint_satisfaction _ _ _ _ _ _ _ _ _ _ h3).2.2⟩⟩

/-- C2 (global optimality, general branch). For `w_agent >= 1e-9`, whenever
`computeOptimalJerksCross` returns true the returned pair lies on the line
`A x + B y = C` and every other pair on that line has strictly larger cost
`x^2 + w_agent * y^2`. -/
theorem general_branch_unique_minimizer
    (d_ego v_ego a_ego d_obs v_obs a_obs t_c t_hw w_agent : F) (out : JerkOut F)
    (hw : eps ≤ w_agent)
    (h : (computeOptimalJerksCross d_ego v_ego a_ego d_obs v_obs a_obs t_c t_hw w_agent out).1
      = true) :
    coefA t_c *
        (computeOptimalJerksCross d_ego v_ego a_ego d_obs v_obs a_obs t_c t_hw w_agent out).2.jerk_ego
      + coefB t_c t_hw *
        (computeOptimalJerksCross d_ego v_ego a_ego d_obs v_obs a_obs t_c t_hw w_agent out).2.jerk_obs
      = coefC d_ego v_ego a_ego d_obs v_obs a_obs t_c t_hw ∧
    ∀ x y : F,
      coefA t_c * x + coefB t_c t_hw * y = coefC d_ego v_ego a_ego d_obs v_obs a_obs t_c t_hw →
      (x ≠ (computeOptimalJerksCross d_ego v_ego a_ego d_obs v_obs a_obs t_c t_hw w_agent
              out).2.jerk_ego ∨
        y ≠ (computeOptimalJerksCross d_ego v_ego a_ego d_obs v_obs a_obs t_c t_hw w_agent
              out).2.jerk_obs) →
      cost w_agent
          (computeOptimalJerksCross d_ego v_ego a_ego d_obs v_obs a_obs t_c t_hw w_agent
            out).2.jerk_ego
          (computeOptimalJerksCross d_ego v_ego a_ego d_obs v_obs a_obs t_c t_hw w_agent
            out).2.jerk_obs
        < cost w_agent x y := by
  refine ⟨success_constraint _ _ _ _ _ _ _ _ _ _ h, ?_⟩
  obtain ⟨ht, _, hdeg | hgen⟩ := success_cases _ _ _ _ _ _ _ _ _ _ h
  · exact absurd hdeg.1 (not_lt.mpr hw)
  · obtain ⟨_, _, hr⟩ := hgen
    rw [hr]
    intro x y hxy hne
    exact generalBranch_strict_min _ _ (coefA_neg ht).ne (lt_of_lt_of_le eps_pos hw) x y hxy hne

/-- C2 at the harness scenario with `w_agent = 1`: the feasible pair
`(0, -1024/2025)` costs strictly more than the returned pair. -/
theorem general_branch_unique_minimizer_witness :
    cost (1 : ℚ)
        (computeOptimalJerksCross (30 : ℚ) 8 0 30 8 0 (15 / 4) 1 1 ⟨0, 0⟩).2.jerk_ego
        (computeOptimalJerksCross (30 : ℚ) 8 0 30 8 0 (15 / 4) 1 1 ⟨0, 0⟩).2.jerk_obs
      < cost (1 : ℚ) 0 (-1024 / 2025) :=
  (general_branch_unique_minimizer (30 : ℚ) 8 0 30 8 0 (15 / 4) 1 1 ⟨0, 0⟩
      (by norm_num [eps])
      (by norm_num [computeOptimalJerksCross, eps, abs_lt])).2 0 (-1024 / 2025)
    (by norm_num [coefA, coefB, coefC])
    (Or.inl (by norm_num [computeOptimalJerksCross, eps, abs_lt]))

/-- C3, as stated, fails: in the harness scenario with `w_agent = 1e-10`
(so `0 <= w_agent < 1e-9`) the call succeeds, but the returned pair `(0, C / B)`
is not a minimizer of `x^2 + w_agent * y^2` on the constraint line. -/
theorem degenerate_branch_not_minimizer :
    (0 : ℚ) ≤ 1 / 10 ^ 10 ∧ (1 / 10 ^ 10 : ℚ) < eps ∧
    (computeOptimalJerksCross (30 : ℚ) 8 0 30 8 0 (15 / 4) 1 (1 / 10 ^ 10) ⟨0, 0⟩).1 = true ∧
    ¬ ∀ x y : ℚ,
      coefA (15 / 4) * x + coefB (15 / 4) 1 * y = coefC 30 8 0 30 8 0 (15 / 4) 1 →
      cost (1 / 10 ^ 10)
          (computeOptimalJerksCross (30 : ℚ) 8 0 30 8 0 (15 / 4) 1 (1 / 10 ^ 10) ⟨0, 0⟩).2.jerk_ego
          (computeOptimalJerksCross (30 : ℚ) 8 0 30 8 0 (15 / 4) 1 (1 / 10 ^ 10) ⟨0, 0⟩).2.jerk_obs
        ≤ cost (1 / 10 ^ 10) x y := by
  refine ⟨by norm_num, by norm_num [eps], by norm_num [computeOptimalJerksCross, eps, abs_lt], ?_⟩
  intro hall
  have hc := hall (1 / 10 ^ 11) ((-1024 + 1125 / 10 ^ 11) / 2025)
    (by norm_num [coefA, coefB, coefC])
  norm_num [computeOptimalJerksCross, eps, abs_lt, cost] at hc

/-- C3, amended. For `w_agent < 1e-9`, whenever `computeOptimalJerksCross`
returns true the returned pair lies on the constraint line and minimizes
`jerk_ego^2` (the cost with the weight taken as zero) over that line; it
minimizes `x^2 + w_agent * y^2` over the line exactly when `w_agent = 0` or
`C = 0`. -/
theorem degenerate_branch_minimizer_iff
    (d_ego v_ego a_ego d_obs v_obs a_obs t_c t_hw w_agent : F) (out : JerkOut F)
    (hw : w_agent < eps)
    (h : (computeOptimalJerksCross d_ego v_ego a_ego d_obs v_obs a_obs t_c t_hw w_agent out).1
      = true) :
    coefA t_c *
        (computeOptimalJerksCross d_ego v_ego a_ego d_obs v_obs a_obs t_c t_hw w_agent out).2.jerk_ego
      + coefB t_c t_hw *
        (computeOptimalJerksCross d_ego v_ego a_ego d_obs v_obs a_obs t_c t_hw w_agent out).2.jerk_obs
      = coefC d_ego v_ego a_ego d_obs v_obs a_obs t_c t_hw ∧
    (∀ x y : F,
      coefA t_c * x + coefB t_c t_hw * y = coefC d_ego v_ego a_ego d_obs v_obs a_obs t_c t_hw →
      cost 0
          (computeOptimalJerksCross d_ego v_ego a_ego d_obs v_obs a_obs t_c t_hw w_agent
            out).2.jerk_ego
          (computeOptimalJerksCross d_ego v_ego a_ego d_obs v_obs a_obs t_c t_hw w_agent
            out).2.jerk_obs
        ≤ cost 0 x y) ∧
    ((∀ x y : F,
      coefA t_c * x + coefB t_c t_hw * y = coefC d_ego v_ego a_ego d_obs v_obs a_obs t_c t_hw →
      cost w_agent
          (computeOptimalJerksCross d_ego v_ego a_ego d_obs v_obs a_obs t_c t_hw w_agent
            out).2.jerk_ego
          (computeOptimalJerksCross d_ego v_ego a_ego d_obs v_obs a_obs t_c t_hw w_agent
            out).2.jerk_obs
        ≤ cost w_agent x y)
      ↔ (w_agent = 0 ∨ coefC d_ego v_ego a_ego d_obs v_obs a_obs t_c t_hw = 0)) := by
  refine ⟨success_constraint _ _ _ _ _ _ _ _ _ _ h, ?_⟩
  obtain ⟨ht, hw0, hdeg | hgen⟩ := success_cases _ _ _ _ _ _ _ _ _ _ h
  swap
  · exact absurd hw (not_lt.mpr hgen.1)
  obtain ⟨_, hB, hr⟩ := hdeg
  have hBne : coefB t_c t_hw ≠ 0 := ne_zero_of_eps_le_abs hB
  have hA : coefA t_c ≠ 0 := (coefA_neg ht).ne
  rw [hr]
  simp only [degenerateBranch]
  refine ⟨?_, ?_, ?_⟩
  · intro x y _
    simp only [cost]
    have : 0 ≤ x ^ 2 := by positivity
    simpa using this
  · intro hmin
    by_contra hcon
    have hwne : w_agent ≠ 0 := fun e => hcon (Or.inl e)
    have hC : coefC d_ego v_ego a_ego d_obs v_obs a_obs t_c t_hw ≠ 0 :=
      fun e => hcon (Or.inr e)
    have hwpos : 0 < w_agent := lt_of_le_of_ne hw0 (Ne.symm hwne)
    have hd : denomOf (coefA t_c) (coefB t_c t_hw) w_agent ≠ 0 :=
      (denomOf_pos _ hA hwpos).ne.symm
    have hfeas := generalBranch_constraint (coefA t_c) (coefB t_c t_hw)
      (coefC d_ego v_ego a_ego d_obs v_obs a_obs t_c t_hw) hwne hd
    have hje : (generalBranch (coefA t_c) (coefB t_c t_hw)
        (coefC d_ego v_ego a_ego d_obs v_obs a_obs t_c t_hw) w_agent).jerk_ego ≠ 0 := by
      rw [(generalBranch_stationary _ _ _ hwne).1]
      exact mul_ne_zero (div_ne_zero hC hd) hA
    have h1 := hmin _ _ hfeas
    have h2 := generalBranch_strict_min (coefB t_c t_hw)
      (coefC d_ego v_ego a_ego d_obs v_obs a_obs t_c t_hw) hA hwpos 0
      (coefC d_ego v_ego a_ego d_obs v_obs a_obs t_c t_hw / coefB t_c t_hw)
      (by field_simp) (Or.inl (Ne.symm hje))
    exact absurd h1 (not_le.mpr h2)
  · rintro (hw0e | hC0) x y _
    · subst hw0e
      simp only [cost]
      have : 0 ≤ x ^ 2 := by positivity
      simpa using this
    · rw [hC0]
      simp only [cost]
      have : 0 ≤ x ^ 2 + w_agent * y ^ 2 := by positivity
      simpa using this

/-- C3 amended, at the harness scenario with `w_agent = 0`: the returned pair
costs no more than the feasible pair `(512/2385, -512/1325)`. -/
theorem degenerate_branch_minimizer_iff_witness :
    cost (0 : ℚ)
        (computeOptimalJerksCross (30 : ℚ) 8 0 30 8 0 (15 / 4) 1 0 ⟨0, 0⟩).2.jerk_ego
        (computeOptimalJerksCross (30 : ℚ) 8 0 30 8 0 (15 / 4) 1 0 ⟨0, 0⟩).2.jerk_obs
      ≤ cost (0 : ℚ) (512 / 2385) (-512 / 1325) :=
  (degenerate_branch_minimizer_iff (30 : ℚ) 8 0 30 8 0 (15 / 4) 1 0 ⟨0, 0⟩
      (by norm_num [eps])
      (by norm_num [computeOptimalJerksCross, eps, abs_lt])).2.2.mpr (Or.inl rfl)
    (512 / 2385) (-512 / 1325) (by norm_num [coefA, coefB, coefC])

/-- C4 (degenerate-weight result). For `t_c > 1e-9`, `0 <= w_agent < 1e-9` and
`|B| >= 1e-9` with `B = t_c^3/6 + (t_c^2/2) * t_hw`, the call returns true with
`jerk_ego = 0` and `jerk_obs = C / B`, where `C = (d_obs - d_ego) -
[(v_obs t + 0.5 a_obs t^2) - (v_ego t + 0.5 a_ego t^2)] - (v_obs + a_obs t) t_hw`. -/
theorem degenerate_weight_result
    (d_ego v_ego a_ego d_obs v_obs a_obs t_c t_hw w_agent : F) (out : JerkOut F)
    (ht : eps < t_c) (hw0 : 0 ≤ w_agent) (hw : w_agent < eps)
    (hB : eps ≤ abs (t_c ^ 3 / 6 + t_c ^ 2 / 2 * t_hw)) :
    computeOptimalJerksCross d_ego v_ego a_ego d_obs v_obs a_obs t_c t_hw w_agent out =
      (true,
        { jerk_ego := 0,
          jerk_obs :=
            ((d_obs - d_ego)
              - ((v_obs * t_c + 1 / 2 * a_obs * t_c ^ 2) - (v_ego * t_c + 1 / 2 * a_ego * t_c ^ 2))
              - (v_obs + a_obs * t_c) * t_hw)
            / (t_c ^ 3 / 6 + t_c ^ 2 / 2 * t_hw) }) := by
  have eB : coefB t_c t_hw = t_c ^ 3 / 6 + t_c ^ 2 / 2 * t_hw := by
    unfold coefB
    ring
  have eC : coefC d_ego v_ego a_ego d_obs v_obs a_obs t_c t_hw =
      (d_obs - d_ego)
        - ((v_obs * t_c + 1 / 2 * a_obs * t_c ^ 2) - (v_ego * t_c + 1 / 2 * a_ego * t_c ^ 2))
        - (v_obs + a_obs * t_c) * t_hw := by
    unfold coefC
    ring
  rw [compute_eq, eB, eC]
  have h1 : ¬ (t_c ≤ eps ∨ w_agent < 0) := by
    rintro (h | h)
    · exact absurd h (not_le.mpr ht)
    · exact absurd h (not_lt.mpr hw0)
  rw [if_neg h1, if_pos hw, if_neg (not_lt.mpr hB)]
  rfl

/-- C4 at the harness scenario with `w_agent = 0`: the call returns
`(true, (0, -1024/2025))`. -/
theorem degenerate_weight_result_witness :
    computeOptimalJerksCross (30 : ℚ) 8 0 30 8 0 (15 / 4) 1 0 ⟨7, 7⟩ =
      (true, { jerk_ego := 0, jerk_obs := -1024 / 2025 }) := by
  have h := degenerate_weight_result (30 : ℚ) 8 0 30 8 0 (15 / 4) 1 0 ⟨7, 7⟩
    (by norm_num [eps]) (by norm_num) (by norm_num [eps]) (by norm_num [eps, le_abs])
  rw [h]
  norm_num

/-- C5 (failure taxonomy). The call returns false if and only if
(1) `t_c <= 1e-9`, or (2) `w_agent < 0`, or (3) `w_agent < 1e-9` and `|B| < 1e-9`,
or (4) `w_agent >= 1e-9` and `|A^2 + B^2 / w_agent| < 1e-9`, where
`A = -t_c^3/6` and `B = t_c^3/6 + (t_c^2/2) * t_hw`; otherwise it returns true. -/
theorem failure_taxonomy
    (d_ego v_ego a_ego d_obs v_obs a_obs t_c t_hw w_agent : F) (out : JerkOut F) :
    ((computeOptimalJerksCross d_ego v_ego a_ego d_obs v_obs a_obs t_c t_hw w_agent out).1 = false
      ↔ (t_c ≤ eps ∨ w_agent < 0 ∨
          (w_agent < eps ∧ abs (t_c ^ 3 / 6 + t_c ^ 2 / 2 * t_hw) < eps) ∨
          (eps ≤ w_agent ∧
            abs ((-(t_c ^ 3 / 6)) ^ 2 + (t_c ^ 3 / 6 + t_c ^ 2 / 2 * t_hw) ^ 2 / w_agent) < eps)))
    ∧
    ((computeOptimalJerksCross d_ego v_ego a_ego d_obs v_obs a_obs t_c t_hw w_agent out).1 = true
      ↔ ¬ (t_c ≤ eps ∨ w_agent < 0 ∨
          (w_agent < eps ∧ abs (t_c ^ 3 / 6 + t_c ^ 2 / 2 * t_hw) < eps) ∨
          (eps ≤ w_agent ∧
            abs ((-(t_c ^ 3 / 6)) ^ 2 + (t_c ^ 3 / 6 + t_c ^ 2 / 2 * t_hw) ^ 2 / w_agent)
              < eps))) := by
  have eB : coefB t_c t_hw = t_c ^ 3 / 6 + t_c ^ 2 / 2 * t_hw := by
    unfold coefB
    ring
  have eD : denomOf (coefA t_c) (coefB t_c t_hw) w_agent =
      (-(t_c ^ 3 / 6)) ^ 2 + (t_c ^ 3 / 6 + t_c ^ 2 / 2 * t_hw) ^ 2 / w_agent := by
    unfold denomOf coefA coefB
    ring
  have key : (computeOptimalJerksCross d_ego v_ego a_ego d_obs v_obs a_obs t_c t_hw w_agent
        out).1 = false
      ↔ (t_c ≤ eps ∨ w_agent < 0 ∨
          (w_agent < eps ∧ abs (t_c ^ 3 / 6 + t_c ^ 2 / 2 * t_hw) < eps) ∨
          (eps ≤ w_agent ∧
            abs ((-(t_c ^ 3 / 6)) ^ 2 + (t_c ^ 3 / 6 + t_c ^ 2 / 2 * t_hw) ^ 2 / w_agent)
              < eps)) := by
    rw [compute_eq, eD, eB]
    by_cases h1 : t_c ≤ eps
    · simp [h1]
    by_cases h2 : w_agent < 0
    · simp [h2]
    have h12 : ¬ (t_c ≤ eps ∨ w_agent < 0) := fun h => h.elim h1 h2
    rw [if_neg h12]
    by_cases h3 : w_agent < eps
    · rw [if_pos h3]
      by_cases h4 : abs (t_c ^ 3 / 6 + t_c ^ 2 / 2 * t_hw) < eps
      · simp [h3, h4]
      · simp [h1, h2, h3, h4, not_le.mpr h3]
    · rw [if_neg h3]
      by_cases h4 : abs ((-(t_c ^ 3 / 6)) ^ 2 + (t_c ^ 3 / 6 + t_c ^ 2 / 2 * t_hw) ^ 2 / w_agent)
          < eps
      · rw [if_pos h4]
        exact ⟨fun _ => Or.inr (Or.inr (Or.inr ⟨not_lt.mp h3, h4⟩)), fun _ => rfl⟩
      · rw [if_neg h4]
        refine ⟨fun h => by simp at h, ?_⟩
        rintro (h | h | h | h)
        · exact absurd h h1
        · exact absurd h h2
        · exact absurd h.1 h3
        · exact absurd h.2 h4
  refine ⟨key, ?_⟩
  rw [← key]
  simp

/-- C6 (horizon rejection). For `t_c <= 1e-9`, whatever the other inputs are,
the call returns false. -/
theorem horizon_rejection
    (d_ego v_ego a_ego d_obs v_obs a_obs t_c t_hw w_agent : F) (out : JerkOut F)
    (ht : t_c ≤ eps) :
    (computeOptimalJerksCross d_ego v_ego a_ego d_obs v_obs a_obs t_c t_hw w_agent out).1
      = false := by
  rw [compute_eq, if_pos (Or.inl ht)]

/-- C6 at `t_c = 0` and at `t_c = -1` on the harness scenario. -/
theorem horizon_rejection_witness :
    (computeOptimalJerksCross (30 : ℚ) 8 0 30 8 0 0 1 1 ⟨0, 0⟩).1 = false ∧
    (computeOptimalJerksCross (30 : ℚ) 8 0 30 8 0 (-1) 1 1 ⟨0, 0⟩).1 = false :=
  ⟨horizon_rejection (30 : ℚ) 8 0 30 8 0 0 1 1 ⟨0, 0⟩ (by norm_num [eps]),
   horizon_rejection (30 : ℚ) 8 0 30 8 0 (-1) 1 1 ⟨0, 0⟩ (by norm_num [eps])⟩

/-- C7 (negative weight rejection). For `w_agent < 0`, whatever the other
inputs are, the call returns false. -/
theorem negative_weight_rejection
    (d_ego v_ego a_ego d_obs v_obs a_obs t_c t_hw w_agent : F) (out : JerkOut F)
    (hw : w_agent < 0) :
    (computeOptimalJerksCross d_ego v_ego a_ego d_obs v_obs a_obs t_c t_hw w_agent out).1
      = false := by
  rw [compute_eq, if_pos (Or.inr hw)]

/-- C7 at `w_agent = -0.1` on the harness scenario. -/
theorem negative_weight_rejection_witness :
    (computeOptimalJerksCross (30 : ℚ) 8 0 30 8 0 (15 / 4) 1 (-1 / 10) ⟨0, 0⟩).1 = false :=
  negative_weight_rejection (30 : ℚ) 8 0 30 8 0 (15 / 4) 1 (-1 / 10) ⟨0, 0⟩ (by norm_num)

/-- C8 (cost monotonicity). For fixed kinematics, horizon and headway and two
weights `w1 <= w2` on which the call succeeds, `|jerk_obs(w2)| <= |jerk_obs(w1)|`
and `|jerk_ego(w1)| <= |jerk_ego(w2)|`, hence
`|jerk_obs(w2)| * |jerk_ego(w1)| <= |jerk_obs(w1)| * |jerk_ego(w2)|`. -/
theorem cost_monotonicity
    (d_ego v_ego a_ego d_obs v_obs a_obs t_c t_hw w1 w2 : F) (out1 out2 : JerkOut F)
    (h12 : w1 ≤ w2)
    (hs1 : (computeOptimalJerksCross d_ego v_ego a_ego d_obs v_obs a_obs t_c t_hw w1 out1).1 = true)
    (hs2 : (computeOptimalJerksCross d_ego v_ego a_ego d_obs v_obs a_obs t_c t_hw w2 out2).1 = true) :
    abs (computeOptimalJerksCross d_ego v_ego a_ego d_obs v_obs a_obs t_c t_hw w2 out2).2.jerk_obs
      ≤ abs (computeOptimalJerksCross d_ego v_ego a_ego d_obs v_obs a_obs t_c t_hw w1 out1).2.jerk_obs ∧
    abs (computeOptimalJerksCross d_ego v_ego a_ego d_obs v_obs a_obs t_c t_hw w1 out1).2.jerk_ego
      ≤ abs (computeOptimalJerksCross d_ego v_ego a_ego d_obs v_obs a_obs t_c t_hw w2 out2).2.jerk_ego ∧
    abs (computeOptimalJerksCross d_ego v_ego a_ego d_obs v_obs a_obs t_c t_hw w2 out2).2.jerk_obs
        * abs (computeOptimalJerksCross d_ego v_ego a_ego d_obs v_obs a_obs t_c t_hw w1 out1).2.jerk_ego
      ≤ abs (computeOptimalJerksCross d_ego v_ego a_ego d_obs v_obs a_obs t_c t_hw w1 out1).2.jerk_obs
        * abs (computeOptimalJerksCross d_ego v_ego a_ego d_obs v_obs a_obs t_c t_hw w2 out2).2.jerk_ego := by
  have key :
      abs (computeOptimalJerksCross d_ego v_ego a_ego d_obs v_obs a_obs t_c t_hw w2 out2).2.jerk_obs
        ≤ abs (computeOptimalJerksCross d_ego v_ego a_ego d_obs v_obs a_obs t_c t_hw w1 out1).2.jerk_obs ∧
      abs (computeOptimalJerksCross d_ego v_ego a_ego d_obs v_obs a_obs t_c t_hw w1 out1).2.jerk_ego
        ≤ abs (computeOptimalJerksCross d_ego v_ego a_ego d_obs v_obs a_obs t_c t_hw w2 out2).2.jerk_ego := by
    obtain ⟨ht, _, hdeg1 | hgen1⟩ := success_cases _ _ _ _ _ _ _ _ _ _ hs1
    · obtain ⟨_, hB, hr1⟩ := hdeg1
      obtain ⟨_, _, hdeg2 | hgen2⟩ := success_cases _ _ _ _ _ _ _ _ _ _ hs2
      · rw [hr1, hdeg2.2.2]
        exact ⟨le_refl _, le_refl _⟩
      · obtain ⟨hw2, _, hr2⟩ := hgen2
        rw [hr1, hr2]
        refine ⟨generalBranch_le_degenerate _ (coefA_neg ht).ne (ne_zero_of_eps_le_abs hB)
          (lt_of_lt_of_le eps_pos hw2), ?_⟩
        simp only [degenerateBranch, abs_zero]
        exact abs_nonneg _
    · obtain ⟨hw1, _, hr1⟩ := hgen1
      obtain ⟨_, _, hdeg2 | hgen2⟩ := success_cases _ _ _ _ _ _ _ _ _ _ hs2
      · exact absurd (lt_of_le_of_lt h12 hdeg2.1) (not_lt.mpr hw1)
      · rw [hr1, hgen2.2.2]
        exact generalBranch_mono _ _ (coefA_neg ht).ne (lt_of_lt_of_le eps_pos hw1) h12
  exact ⟨key.1, key.2, mul_le_mul key.1 key.2 (abs_nonneg _) (abs_nonneg _)⟩

/-- C8 on the sweep `w = 0.01, 0.1, 1, 10` of the scenario `d = 30, v = 8, a = 0,
t_c = 3.75, t_hw = 1`. -/
theorem cost_monotonicity_witness :
    (abs (computeOptimalJerksCross (30 : ℚ) 8 0 30 8 0 (15 / 4) 1 (1 / 10) ⟨0, 0⟩).2.jerk_obs
        ≤ abs (computeOptimalJerksCross (30 : ℚ) 8 0 30 8 0 (15 / 4) 1 (1 / 100) ⟨0, 0⟩).2.jerk_obs ∧
      abs (computeOptimalJerksCross (30 : ℚ) 8 0 30 8 0 (15 / 4) 1 (1 / 100) ⟨0, 0⟩).2.jerk_ego
        ≤ abs (computeOptimalJerksCross (30 : ℚ) 8 0 30 8 0 (15 / 4) 1 (1 / 10) ⟨0, 0⟩).2.jerk_ego) ∧
    (abs (computeOptimalJerksCross (30 : ℚ) 8 0 30 8 0 (15 / 4) 1 1 ⟨0, 0⟩).2.jerk_obs
        ≤ abs (computeOptimalJerksCross (30 : ℚ) 8 0 30 8 0 (15 / 4) 1 (1 / 10) ⟨0, 0⟩).2.jerk_obs ∧
      abs (computeOptimalJerksCross (30 : ℚ) 8 0 30 8 0 (15 / 4) 1 (1 / 10) ⟨0, 0⟩).2.jerk_ego
        ≤ abs (computeOptimalJerksCross (30 : ℚ) 8 0 30 8 0 (15 / 4) 1 1 ⟨0, 0⟩).2.jerk_ego) ∧
    (abs (computeOptimalJerksCross (30 : ℚ) 8 0 30 8 0 (15 / 4) 1 10 ⟨0, 0⟩).2.jerk_obs
        ≤ abs (computeOptimalJerksCross (30 : ℚ) 8 0 30 8 0 (15 / 4) 1 1 ⟨0, 0⟩).2.jerk_obs ∧
      abs (computeOptimalJerksCross (30 : ℚ) 8 0 30 8 0 (15 / 4) 1 1 ⟨0, 0⟩).2.jerk_ego
        ≤ abs (computeOptimalJerksCross (30 : ℚ) 8 0 30 8 0 (15 / 4) 1 10 ⟨0, 0⟩).2.jerk_ego) :=
  ⟨⟨(cost_monotonicity (30 : ℚ) 8 0 30 8 0 (15 / 4) 1 (1 / 100) (1 / 10) ⟨0, 0⟩ ⟨0, 0⟩
        (by norm_num)
        (by norm_num [computeOptimalJerksCross, eps, abs_lt])
        (by norm_num [computeOptimalJerksCross, eps, abs_lt])).1,
    (cost_monotonicity (30 : ℚ) 8 0 30 8 0 (15 / 4) 1 (1 / 100) (1 / 10) ⟨0, 0⟩ ⟨0, 0⟩
        (by norm_num)
        (by norm_num [computeOptimalJerksCross, eps, abs_lt])
        (by norm_num [computeOptimalJerksCross, eps, abs_lt])).2.1⟩,
   ⟨(cost_monotonicity (30 : ℚ) 8 0 30 8 0 (15 / 4) 1 (1 / 10) 1 ⟨0, 0⟩ ⟨0, 0⟩
        (by norm_num)
        (by norm_num [computeOptimalJerksCross, eps, abs_lt])
        (by norm_num [computeOptimalJerksCross, eps, abs_lt])).1,
    (cost_monotonicity (30 : ℚ) 8 0 30 8 0 (15 / 4) 1 (1 / 10) 1 ⟨0, 0⟩ ⟨0, 0⟩
        (by norm_num)
        (by norm_num [computeOptimalJerksCross, eps, abs_lt])
        (by norm_num [computeOptimalJerksCross, eps, abs_lt])).2.1⟩,
   ⟨(cost_monotonicity (30 : ℚ) 8 0 30 8 0 (15 / 4) 1 1 10 ⟨0, 0⟩ ⟨0, 0⟩
        (by norm_num)
        (by norm_num [computeOptimalJerksCross, eps, abs_lt])
        (by norm_num [computeOptimalJerksCross, eps, abs_lt])).1,
    (cost_monotonicity (30 : ℚ) 8 0 30 8 0 (15 / 4) 1 1 10 ⟨0, 0⟩ ⟨0, 0⟩
        (by norm_num)
        (by norm_num [computeOptimalJerksCross, eps, abs_lt])
        (by norm_num [computeOptimalJerksCross, eps, abs_lt])).2.1⟩⟩

/-- C9, as stated, fails: with `t_c = 1` and `t_hw = -1/3 + 1e-10` one has
`t_c > 1e-9` and `B = 5e-11`, which is not zero, yet the call with `w_agent = 0`
returns false and leaves the outputs untouched, so it does not return `(0, C / B)`. -/
theorem weight_zero_small_B_fails :
    (eps : ℝ) < 1 ∧ coefB (1 : ℝ) (-1 / 3 + 1 / 10 ^ 10) ≠ 0 ∧
    computeOptimalJerksCross (30 : ℝ) 8 0 30 8 0 1 (-1 / 3 + 1 / 10 ^ 10) 0 ⟨7, 7⟩
      = (false, ⟨7, 7⟩) ∧
    (computeOptimalJerksCross (30 : ℝ) 8 0 30 8 0 1 (-1 / 3 + 1 / 10 ^ 10) 0 ⟨7, 7⟩).2.jerk_obs
      ≠ coefC (30 : ℝ) 8 0 30 8 0 1 (-1 / 3 + 1 / 10 ^ 10) / coefB (1 : ℝ) (-1 / 3 + 1 / 10 ^ 10) := by
  refine ⟨by norm_num [eps], by norm_num [coefB], ?_, ?_⟩
  · norm_num [computeOptimalJerksCross, eps, abs_lt]
  · norm_num [computeOptimalJerksCross, eps, abs_lt, coefB, coefC]

/-- C9, amended. For real inputs with `t_c > 1e-9` and `B ≠ 0`, the
general-branch formula, which is what a successful call returns for every
`w_agent >= 1e-9`, converges to `(0, C / B)` as `w -> 0+`; the call with
`w_agent = 0` returns exactly that pair when `|B| >= 1e-9`, and returns false
without writing the outputs when `|B| < 1e-9`. -/
theorem weight_zero_limit
    (d_ego v_ego a_ego d_obs v_obs a_obs t_c t_hw : ℝ) (out : JerkOut ℝ)
    (ht : eps < t_c) (hB : coefB t_c t_hw ≠ 0) :
    (∀ w : ℝ, eps ≤ w →
      (computeOptimalJerksCross d_ego v_ego a_ego d_obs v_obs a_obs t_c t_hw w out).1 = true →
      (computeOptimalJerksCross d_ego v_ego a_ego d_obs v_obs a_obs t_c t_hw w out).2
        = generalBranch (coefA t_c) (coefB t_c t_hw)
            (coefC d_ego v_ego a_ego d_obs v_obs a_obs t_c t_hw) w) ∧
    Filter.Tendsto
      (fun w : ℝ => (generalBranch (coefA t_c) (coefB t_c t_hw)
        (coefC d_ego v_ego a_ego d_obs v_obs a_obs t_c t_hw) w).jerk_ego)
      (nhdsWithin 0 (Set.Ioi 0)) (nhds 0) ∧
    Filter.Tendsto
      (fun w : ℝ => (generalBranch (coefA t_c) (coefB t_c t_hw)
        (coefC d_ego v_ego a_ego d_obs v_obs a_obs t_c t_hw) w).jerk_obs)
      (nhdsWithin 0 (Set.Ioi 0))
      (nhds (coefC d_ego v_ego a_ego d_obs v_obs a_obs t_c t_hw / coefB t_c t_hw)) ∧
    computeOptimalJerksCross d_ego v_ego a_ego d_obs v_obs a_obs t_c t_hw 0 out
      = if abs (coefB t_c t_hw) < eps then (false, out)
        else (true,
          { jerk_ego := 0,
            jerk_obs := coefC d_ego v_ego a_ego d_obs v_obs a_obs t_c t_hw / coefB t_c t_hw }) := by
  have hA : coefA t_c ≠ 0 := (coefA_neg ht).ne
  have hB2 : coefB t_c t_hw ^ 2 ≠ 0 := pow_ne_zero 2 hB
  refine ⟨?_, ?_, ?_, ?_⟩
  · intro w hw hs
    obtain ⟨_, _, hdeg | hgen⟩ := success_cases _ _ _ _ _ _ _ _ _ _ hs
    · exact absurd hdeg.1 (not_lt.mpr hw)
    · exact hgen.2.2
  · have hcont : ContinuousAt
        (fun w : ℝ => coefC d_ego v_ego a_ego d_obs v_obs a_obs t_c t_hw * coefA t_c * w
          / (w * coefA t_c ^ 2 + coefB t_c t_hw ^ 2)) 0 := by
      apply ContinuousAt.div
      · fun_prop
      · fun_prop
      · simpa using hB
    have hlim := hcont.tendsto
    simp only [mul_zero, zero_div] at hlim
    refine (tendsto_nhdsWithin_of_tendsto_nhds hlim).congr' ?_
    refine eventually_nhdsWithin_of_forall ?_
    intro w hw
    exact ((generalBranch_closed _ _ hA hw).1).symm
  · have hcont : ContinuousAt
        (fun w : ℝ => coefC d_ego v_ego a_ego d_obs v_obs a_obs t_c t_hw * coefB t_c t_hw
          / (w * coefA t_c ^ 2 + coefB t_c t_hw ^ 2)) 0 := by
      apply ContinuousAt.div
      · fun_prop
      · fun_prop
      · simpa using hB
    have hlim := hcont.tendsto
    have e : coefC d_ego v_ego a_ego d_obs v_obs a_obs t_c t_hw * coefB t_c t_hw
          / (0 * coefA t_c ^ 2 + coefB t_c t_hw ^ 2)
        = coefC d_ego v_ego a_ego d_obs v_obs a_obs t_c t_hw / coefB t_c t_hw := by
      field_simp
      ring
    rw [e] at hlim
    refine (tendsto_nhdsWithin_of_tendsto_nhds hlim).congr' ?_
    refine eventually_nhdsWithin_of_forall ?_
    intro w hw
    exact ((generalBranch_closed _ _ hA hw).2).symm
  · rw [compute_eq]
    have h1 : ¬ (t_c ≤ eps ∨ (0 : ℝ) < 0) := by
      rintro (h | h)
      · exact absurd h (not_le.mpr ht)
      · exact lt_irrefl _ h
    rw [if_neg h1, if_pos eps_pos]
    rfl

/-- C9 amended, at the harness scenario: the obstacle component of the
general-branch formula tends to `-1024/2025`, the value returned for `w_agent = 0`. -/
theorem weight_zero_limit_witness :
    Filter.Tendsto
      (fun w : ℝ => (generalBranch (coefA (15 / 4)) (coefB (15 / 4) 1)
        (coefC 30 8 0 30 8 0 (15 / 4) 1) w).jerk_obs)
      (nhdsWithin 0 (Set.Ioi 0))
      (nhds (coefC (30 : ℝ) 8 0 30 8 0 (15 / 4) 1 / coefB (15 / 4) 1)) ∧
    coefC (30 : ℝ) 8 0 30 8 0 (15 / 4) 1 / coefB (15 / 4) 1 = -1024 / 2025 ∧
    computeOptimalJerksCross (30 : ℝ) 8 0 30 8 0 (15 / 4) 1 0 ⟨0, 0⟩
      = (true, { jerk_ego := 0, jerk_obs := -1024 / 2025 }) :=
  ⟨(weight_zero_limit (30 : ℝ) 8 0 30 8 0 (15 / 4) 1 ⟨0, 0⟩
      (by norm_num [eps]) (by norm_num [coefB])).2.2.1,
    by norm_num [coefB, coefC],
    by norm_num [computeOptimalJerksCross, eps, abs_lt]⟩

/-- C10, as stated, fails: on the symmetric scenario with `w_agent = 1` the call
succeeds but `|jerk_ego + jerk_obs|` exceeds `1e-3`. -/
theorem symmetric_scenario_not_symmetric :
    (computeOptimalJerksCross (30 : ℚ) 8 0 30 8 0 (15 / 4) 1 1 ⟨0, 0⟩).1 = true ∧
    ¬ abs ((computeOptimalJerksCross (30 : ℚ) 8 0 30 8 0 (15 / 4) 1 1 ⟨0, 0⟩).2.jerk_ego
        + (computeOptimalJerksCross (30 : ℚ) 8 0 30 8 0 (15 / 4) 1 1 ⟨0, 0⟩).2.jerk_obs)
      ≤ 1 / 10 ^ 3 := by
  constructor
  · norm_num [computeOptimalJerksCross, eps, abs_lt]
  · norm_num [computeOptimalJerksCross, eps, abs_lt, lt_abs]

/-- C10, amended. On the symmetric scenario with `w_agent = 1` the call succeeds
and returns `jerk_ego = 512/2385`, `jerk_obs = -512/1325`: the two jerks have
opposite signs and satisfy `9 * jerk_ego = -5 * jerk_obs` (the ratio `A / B` is
`-5/9`), and `jerk_ego + jerk_obs = -2048/11925`.  The horizon `3.75` is the one
`main` computes. -/
theorem symmetric_scenario_result :
    computeOptimalJerksCross (30 : ℚ) 8 0 30 8 0 (15 / 4) 1 1 ⟨0, 0⟩
      = (true, { jerk_ego := 512 / 2385, jerk_obs := -512 / 1325 }) ∧
    9 * (computeOptimalJerksCross (30 : ℚ) 8 0 30 8 0 (15 / 4) 1 1 ⟨0, 0⟩).2.jerk_ego
      = -5 * (computeOptimalJerksCross (30 : ℚ) 8 0 30 8 0 (15 / 4) 1 1 ⟨0, 0⟩).2.jerk_obs ∧
    (computeOptimalJerksCross (30 : ℚ) 8 0 30 8 0 (15 / 4) 1 1 ⟨0, 0⟩).2.jerk_ego
      + (computeOptimalJerksCross (30 : ℚ) 8 0 30 8 0 (15 / 4) 1 1 ⟨0, 0⟩).2.jerk_obs
      = -2048 / 11925 ∧
    coefA (15 / 4 : ℚ) / coefB (15 / 4) 1 = -5 / 9 ∧
    (main_t_c : ℚ) = 15 / 4 := by
  refine ⟨?_, ?_, ?_, ?_, ?_⟩
  · norm_num [computeOptimalJerksCross, eps, abs_lt]
  · norm_num [computeOptimalJerksCross, eps, abs_lt]
  · norm_num [computeOptimalJerksCross, eps, abs_lt]
  · norm_num [coefA, coefB]
  · norm_num [main_t_c]

/-- C11 (no partial output on failure). With the two output references as
explicit state, whenever the call returns false both `jerk_ego` and `jerk_obs`
hold exactly their prior values. -/
theorem no_partial_output
    (d_ego v_ego a_ego d_obs v_obs a_obs t_c t_hw w_agent : F) (out : JerkOut F)
    (h : (computeOptimalJerksCross d_ego v_ego a_ego d_obs v_obs a_obs t_c t_hw w_agent out).1
      = false) :
    (computeOptimalJerksCross d_ego v_ego a_ego d_obs v_obs a_obs t_c t_hw w_agent out).2.jerk_ego
      = out.jerk_ego ∧
    (computeOptimalJerksCross d_ego v_ego a_ego d_obs v_obs a_obs t_c t_hw w_agent out).2.jerk_obs
      = out.jerk_obs := by
  rw [failure_keeps_out _ _ _ _ _ _ _ _ _ _ h]
  exact ⟨rfl, rfl⟩

/-- C11 on the four failure paths, with prior values `(7, -3)`: zero horizon,
negative weight, `|B| < 1e-9` with zero weight (`t_c = 1`, `t_hw = -1/3`), and
`|denom| < 1e-9` with unit weight (`t_c = 0.01`, `t_hw = 0`). -/
theorem no_partial_output_witness :
    ((computeOptimalJerksCross (30 : ℚ) 8 0 30 8 0 0 1 1 ⟨7, -3⟩).2.jerk_ego = 7 ∧
      (computeOptimalJerksCross (30 : ℚ) 8 0 30 8 0 0 1 1 ⟨7, -3⟩).2.jerk_obs = -3) ∧
    ((computeOptimalJerksCross (30 : ℚ) 8 0 30 8 0 (15 / 4) 1 (-1 / 10) ⟨7, -3⟩).2.jerk_ego = 7 ∧
      (computeOptimalJerksCross (30 : ℚ) 8 0 30 8 0 (15 / 4) 1 (-1 / 10) ⟨7, -3⟩).2.jerk_obs = -3) ∧
    ((computeOptimalJerksCross (30 : ℚ) 8 0 30 8 0 1 (-1 / 3) 0 ⟨7, -3⟩).2.jerk_ego = 7 ∧
      (computeOptimalJerksCross (30 : ℚ) 8 0 30 8 0 1 (-1 / 3) 0 ⟨7, -3⟩).2.jerk_obs = -3) ∧
    ((computeOptimalJerksCross (30 : ℚ) 8 0 30 8 0 (1 / 100) 0 1 ⟨7, -3⟩).2.jerk_ego = 7 ∧
      (computeOptimalJerksCross (30 : ℚ) 8 0 30 8 0 (1 / 100) 0 1 ⟨7, -3⟩).2.jerk_obs = -3) :=
  ⟨no_partial_output (30 : ℚ) 8 0 30 8 0 0 1 1 ⟨7, -3⟩
      (by norm_num [computeOptimalJerksCross, eps, abs_lt]),
   no_partial_output (30 : ℚ) 8 0 30 8 0 (15 / 4) 1 (-1 / 10) ⟨7, -3⟩
      (by norm_num [computeOptimalJerksCross, eps, abs_lt]),
   no_partial_output (30 : ℚ) 8 0 30 8 0 1 (-1 / 3) 0 ⟨7, -3⟩
      (by norm_num [computeOptimalJerksCross, eps, abs_lt]),
   no_partial_output (30 : ℚ) 8 0 30 8 0 (1 / 100) 0 1 ⟨7, -3⟩
      (by norm_num [computeOptimalJerksCross, eps, abs_lt])⟩

/-- C12, as stated, fails: with `t_c = 0.01`, `t_hw = 0`, `w_agent = 1` the call
returns false behind the guard `|denom| < 1e-9`, yet a real pair on the
constraint line attains the minimum of `x^2 + w_agent * y^2` over the line. -/
theorem general_failure_minimizer_exists :
    (eps : ℝ) < 1 / 100 ∧ (eps : ℝ) ≤ 1 ∧
    (computeOptimalJerksCross (30 : ℝ) 8 0 30 8 0 (1 / 100) 0 1 ⟨0, 0⟩).1 = false ∧
    abs (denomOf (coefA (1 / 100 : ℝ)) (coefB (1 / 100) 0) 1) < eps ∧
    ∃ x y : ℝ,
      coefA (1 / 100) * x + coefB (1 / 100) 0 * y = coefC 30 8 0 30 8 0 (1 / 100) 0 ∧
      ∀ u v : ℝ,
        coefA (1 / 100) * u + coefB (1 / 100) 0 * v = coefC 30 8 0 30 8 0 (1 / 100) 0 →
        cost 1 x y ≤ cost 1 u v := by
  have hA : coefA (1 / 100 : ℝ) ≠ 0 := by norm_num [coefA]
  have hd : denomOf (coefA (1 / 100 : ℝ)) (coefB (1 / 100) 0) 1 ≠ 0 :=
    (denomOf_pos _ hA one_pos).ne.symm
  refine ⟨by norm_num [eps], by norm_num [eps],
    by norm_num [computeOptimalJerksCross, eps, abs_lt],
    by norm_num [denomOf, coefA, coefB, eps, abs_lt], ?_⟩
  refine ⟨_, _, generalBranch_constraint (coefA (1 / 100 : ℝ)) (coefB (1 / 100) 0)
    (coefC 30 8 0 30 8 0 (1 / 100) 0) one_ne_zero hd, ?_⟩
  intro u v huv
  exact generalBranch_min _ _ hA one_pos u v huv

/-- C12, amended. For `t_c > 1e-9` and `w_agent >= 1e-9`, whenever the call
returns false, `denom = A^2 + B^2 / w_agent` is positive and below `1e-9`, and a
finite minimizer still exists: the pair of the general-branch formula lies on
the constraint line, attains the minimum of `x^2 + w_agent * y^2` over it, and
every other pair on the line costs strictly more. -/
theorem general_failure_small_denom
    (d_ego v_ego a_ego d_obs v_obs a_obs t_c t_hw w_agent : F) (out : JerkOut F)
    (ht : eps < t_c) (hw : eps ≤ w_agent)
    (h : (computeOptimalJerksCross d_ego v_ego a_ego d_obs v_obs a_obs t_c t_hw w_agent out).1
      = false) :
    0 < denomOf (coefA t_c) (coefB t_c t_hw) w_agent ∧
    denomOf (coefA t_c) (coefB t_c t_hw) w_agent < eps ∧
    coefA t_c *
        (generalBranch (coefA t_c) (coefB t_c t_hw)
          (coefC d_ego v_ego a_ego d_obs v_obs a_obs t_c t_hw) w_agent).jerk_ego
      + coefB t_c t_hw *
        (generalBranch (coefA t_c) (coefB t_c t_hw)
          (coefC d_ego v_ego a_ego d_obs v_obs a_obs t_c t_hw) w_agent).jerk_obs
      = coefC d_ego v_ego a_ego d_obs v_obs a_obs t_c t_hw ∧
    (∀ x y : F,
      coefA t_c * x + coefB t_c t_hw * y = coefC d_ego v_ego a_ego d_obs v_obs a_obs t_c t_hw →
      cost w_agent
          (generalBranch (coefA t_c) (coefB t_c t_hw)
            (coefC d_ego v_ego a_ego d_obs v_obs a_obs t_c t_hw) w_agent).jerk_ego
          (generalBranch (coefA t_c) (coefB t_c t_hw)
            (coefC d_ego v_ego a_ego d_obs v_obs a_obs t_c t_hw) w_agent).jerk_obs
        ≤ cost w_agent x y) ∧
    (∀ x y : F,
      coefA t_c * x + coefB t_c t_hw * y = coefC d_ego v_ego a_ego d_obs v_obs a_obs t_c t_hw →
      (x ≠ (generalBranch (coefA t_c) (coefB t_c t_hw)
              (coefC d_ego v_ego a_ego d_obs v_obs a_obs t_c t_hw) w_agent).jerk_ego ∨
        y ≠ (generalBranch (coefA t_c) (coefB t_c t_hw)
              (coefC d_ego v_ego a_ego d_obs v_obs a_obs t_c t_hw) w_agent).jerk_obs) →
      cost w_agent
          (generalBranch (coefA t_c) (coefB t_c t_hw)
            (coefC d_ego v_ego a_ego d_obs v_obs a_obs t_c t_hw) w_agent).jerk_ego
          (generalBranch (coefA t_c) (coefB t_c t_hw)
            (coefC d_ego v_ego a_ego d_obs v_obs a_obs t_c t_hw) w_agent).jerk_obs
        < cost w_agent x y) := by
  have hwpos : 0 < w_agent := lt_of_lt_of_le eps_pos hw
  have hA : coefA t_c ≠ 0 := (coefA_neg ht).ne
  have hdpos := denomOf_pos (coefB t_c t_hw) hA hwpos
  have hsmall : denomOf (coefA t_c) (coefB t_c t_hw) w_agent < eps := by
    rcases failure_cases _ _ _ _ _ _ _ _ _ _ ht hwpos.le h with hdeg | hgen
    · exact absurd hdeg.1 (not_lt.mpr hw)
    · exact lt_of_le_of_lt (le_abs_self _) hgen.2
  refine ⟨hdpos, hsmall, generalBranch_constraint _ _ _ hwpos.ne.symm hdpos.ne.symm, ?_, ?_⟩
  · intro x y hxy
    exact generalBranch_min _ _ hA hwpos x y hxy
  · intro x y hxy hne
    exact generalBranch_strict_min _ _ hA hwpos x y hxy hne

/-- C12 amended, at `t_c = 0.01`, `t_hw = 0`, `w_agent = 1` on the harness
kinematics: the call fails with `0 < denom < 1e-9`. -/
theorem general_failure_small_denom_witness :
    (computeOptimalJerksCross (30 : ℚ) 8 0 30 8 0 (1 / 100) 0 1 ⟨0, 0⟩).1 = false ∧
    0 < denomOf (coefA (1 / 100 : ℚ)) (coefB (1 / 100) 0) 1 ∧
    denomOf (coefA (1 / 100 : ℚ)) (coefB (1 / 100) 0) 1 < eps := by
  have hf : (computeOptimalJerksCross (30 : ℚ) 8 0 30 8 0 (1 / 100) 0 1 ⟨0, 0⟩).1 = false := by
    norm_num [computeOptimalJerksCross, eps, abs_lt]
  have h := general_failure_small_denom (30 : ℚ) 8 0 30 8 0 (1 / 100) 0 1 ⟨0, 0⟩
    (by norm_num [eps]) (by norm_num [eps]) hf
  exact ⟨hf, h.1, h.2.1⟩

/-- C13, as stated, fails: with `t_c = 3`, `t_hw = -1 + 1e-11` and `w_agent = 0`
the call returns false behind the guard `|B| < 1e-9` (here `B = 4.5e-11`), yet
`y = C / B` solves `A * 0 + B * y = C`. -/
theorem degenerate_failure_solution_exists :
    (eps : ℝ) < 3 ∧ (0 : ℝ) ≤ 0 ∧ (0 : ℝ) < eps ∧
    (computeOptimalJerksCross (30 : ℝ) 8 0 30 8 0 3 (-1 + 1 / 10 ^ 11) 0 ⟨0, 0⟩).1 = false ∧
    abs (coefB (3 : ℝ) (-1 + 1 / 10 ^ 11)) < eps ∧
    ∃ y : ℝ,
      coefA 3 * 0 + coefB 3 (-1 + 1 / 10 ^ 11) * y
        = coefC 30 8 0 30 8 0 3 (-1 + 1 / 10 ^ 11) := by
  refine ⟨by norm_num [eps], le_refl _, eps_pos,
    by norm_num [computeOptimalJerksCross, eps, abs_lt],
    by norm_num [coefB, eps, abs_lt], ?_⟩
  refine ⟨coefC 30 8 0 30 8 0 3 (-1 + 1 / 10 ^ 11) / coefB 3 (-1 + 1 / 10 ^ 11), ?_⟩
  have hB : coefB (3 : ℝ) (-1 + 1 / 10 ^ 11) ≠ 0 := by norm_num [coefB]
  exact degenerateBranch_constraint (coefA 3) (coefC 30 8 0 30 8 0 3 (-1 + 1 / 10 ^ 11)) hB

/-- C13, amended. For `t_c > 1e-9` and `0 <= w_agent < 1e-9`, whenever the call
returns false, `|B| < 1e-9`; a `y` with `A * 0 + B * y = C` exists exactly when
`B ≠ 0` or `C = 0`, so no solution exists only when `B = 0` and `C ≠ 0`. -/
theorem degenerate_failure_solvable_iff
    (d_ego v_ego a_ego d_obs v_obs a_obs t_c t_hw w_agent : F) (out : JerkOut F)
    (ht : eps < t_c) (hw0 : 0 ≤ w_agent) (hw : w_agent < eps)
    (h : (computeOptimalJerksCross d_ego v_ego a_ego d_obs v_obs a_obs t_c t_hw w_agent out).1
      = false) :
    abs (coefB t_c t_hw) < eps ∧
    ((∃ y : F, coefA t_c * 0 + coefB t_c t_hw * y
        = coefC d_ego v_ego a_ego d_obs v_obs a_obs t_c t_hw)
      ↔ (coefB t_c t_hw ≠ 0 ∨ coefC d_ego v_ego a_ego d_obs v_obs a_obs t_c t_hw = 0)) := by
  constructor
  · rcases failure_cases _ _ _ _ _ _ _ _ _ _ ht hw0 h with hdeg | hgen
    · exact hdeg.2
    · exact absurd hw (not_lt.mpr hgen.1)
  · constructor
    · rintro ⟨y, hy⟩
      by_cases hB : coefB t_c t_hw = 0
      · right
        rw [hB] at hy
        rw [← hy]
        ring
      · exact Or.inl hB
    · rintro (hB | hC)
      · exact ⟨coefC d_ego v_ego a_ego d_obs v_obs a_obs t_c t_hw / coefB t_c t_hw, by
          field_simp⟩
      · exact ⟨0, by rw [hC]; ring⟩

/-- C13 amended, at `t_c = 1`, `t_hw = -1/3`, `w_agent = 0` on the harness
kinematics: there `B = 0` and `C = 8/3`, the call fails and no `y` solves
`A * 0 + B * y = C`. -/
theorem degenerate_failure_solvable_iff_witness :
    (computeOptimalJerksCross (30 : ℚ) 8 0 30 8 0 1 (-1 / 3) 0 ⟨0, 0⟩).1 = false ∧
    ¬ ∃ y : ℚ, coefA 1 * 0 + coefB 1 (-1 / 3) * y = coefC 30 8 0 30 8 0 1 (-1 / 3) := by
  have hf : (computeOptimalJerksCross (30 : ℚ) 8 0 30 8 0 1 (-1 / 3) 0 ⟨0, 0⟩).1 = false := by
    norm_num [computeOptimalJerksCross, eps, abs_lt]
  refine ⟨hf, fun hex => ?_⟩
  have h := (degenerate_failure_solvable_iff (30 : ℚ) 8 0 30 8 0 1 (-1 / 3) 0 ⟨0, 0⟩
    (by norm_num [eps]) (le_refl _) eps_pos hf).2.mp hex
  norm_num [coefB, coefC] at h

/-- C14 (Lagrange stationarity, general branch). For `w_agent >= 1e-9`, whenever
the call returns true there is a multiplier `lambda = 2 C / (A^2 + B^2 / w_agent)`
with `jerk_ego = lambda A / 2` and `jerk_obs = lambda B / (2 w_agent)`; moreover
`B * jerk_ego = w_agent * A * jerk_obs`, and `jerk_ego = C A w / (w A^2 + B^2)`,
`jerk_obs = C B / (w A^2 + B^2)`. -/
theorem lagrange_stationarity
    (d_ego v_ego a_ego d_obs v_obs a_obs t_c t_hw w_agent : F) (out : JerkOut F)
    (hw : eps ≤ w_agent)
    (h : (computeOptimalJerksCross d_ego v_ego a_ego d_obs v_obs a_obs t_c t_hw w_agent out).1
      = true) :
    ∃ lam : F,
      lam = 2 * coefC d_ego v_ego a_ego d_obs v_obs a_obs t_c t_hw
        / (coefA t_c ^ 2 + coefB t_c t_hw ^ 2 / w_agent) ∧
      (computeOptimalJerksCross d_ego v_ego a_ego d_obs v_obs a_obs t_c t_hw w_agent out).2.jerk_ego
        = lam * coefA t_c / 2 ∧
      (computeOptimalJerksCross d_ego v_ego a_ego d_obs v_obs a_obs t_c t_hw w_agent out).2.jerk_obs
        = lam * coefB t_c t_hw / (2 * w_agent) ∧
      coefB t_c t_hw *
          (computeOptimalJerksCross d_ego v_ego a_ego d_obs v_obs a_obs t_c t_hw w_agent out).2.jerk_ego
        = w_agent * coefA t_c *
          (computeOptimalJerksCross d_ego v_ego a_ego d_obs v_obs a_obs t_c t_hw w_agent out).2.jerk_obs ∧
      (computeOptimalJerksCross d_ego v_ego a_ego d_obs v_obs a_obs t_c t_hw w_agent out).2.jerk_ego
        = coefC d_ego v_ego a_ego d_obs v_obs a_obs t_c t_hw * coefA t_c * w_agent
          / (w_agent * coefA t_c ^ 2 + coefB t_c t_hw ^ 2) ∧
      (computeOptimalJerksCross d_ego v_ego a_ego d_obs v_obs a_obs t_c t_hw w_agent out).2.jerk_obs
        = coefC d_ego v_ego a_ego d_obs v_obs a_obs t_c t_hw * coefB t_c t_hw
          / (w_agent * coefA t_c ^ 2 + coefB t_c t_hw ^ 2) := by
  obtain ⟨ht, _, hdeg | hgen⟩ := success_cases _ _ _ _ _ _ _ _ _ _ h
  · exact absurd hdeg.1 (not_lt.mpr hw)
  · obtain ⟨_, _, hr⟩ := hgen
    have hwpos : 0 < w_agent := lt_of_lt_of_le eps_pos hw
    obtain ⟨e1, e2⟩ := generalBranch_closed (coefB t_c t_hw)
      (coefC d_ego v_ego a_ego d_obs v_obs a_obs t_c t_hw) (coefA_neg ht).ne hwpos
    obtain ⟨s1, s2⟩ := generalBranch_stationary (coefA t_c) (coefB t_c t_hw)
      (coefC d_ego v_ego a_ego d_obs v_obs a_obs t_c t_hw) hwpos.ne.symm
    refine ⟨_, rfl, ?_, ?_, ?_, ?_, ?_⟩
    · rw [hr]
      simp only [generalBranch, denomOf, sq]
    · rw [hr]
      simp only [generalBranch, denomOf, sq]
    · rw [hr]
      linear_combination coefB t_c t_hw * s1 - coefA t_c * s2
    · rw [hr]
      exact e1
    · rw [hr]
      exact e2

/-- C14 at the harness scenario with `w_agent = 1`: the multiplier is
`lambda = -131072/2683125` and the returned pair is `(512/2385, -512/1325)`. -/
theorem lagrange_stationarity_witness :
    ∃ lam : ℚ,
      lam = 2 * coefC 30 8 0 30 8 0 (15 / 4) 1 / (coefA (15 / 4) ^ 2 + coefB (15 / 4) 1 ^ 2 / 1) ∧
      (computeOptimalJerksCross (30 : ℚ) 8 0 30 8 0 (15 / 4) 1 1 ⟨0, 0⟩).2.jerk_ego
        = lam * coefA (15 / 4) / 2 ∧
      (computeOptimalJerksCross (30 : ℚ) 8 0 30 8 0 (15 / 4) 1 1 ⟨0, 0⟩).2.jerk_obs
        = lam * coefB (15 / 4) 1 / (2 * 1) ∧
      coefB (15 / 4) 1 * (computeOptimalJerksCross (30 : ℚ) 8 0 30 8 0 (15 / 4) 1 1 ⟨0, 0⟩).2.jerk_ego
        = 1 * coefA (15 / 4) * (computeOptimalJerksCross (30 : ℚ) 8 0 30 8 0 (15 / 4) 1 1 ⟨0, 0⟩).2.jerk_obs ∧
      (computeOptimalJerksCross (30 : ℚ) 8 0 30 8 0 (15 / 4) 1 1 ⟨0, 0⟩).2.jerk_ego
        = coefC 30 8 0 30 8 0 (15 / 4) 1 * coefA (15 / 4) * 1
          / (1 * coefA (15 / 4) ^ 2 + coefB (15 / 4) 1 ^ 2) ∧
      (computeOptimalJerksCross (30 : ℚ) 8 0 30 8 0 (15 / 4) 1 1 ⟨0, 0⟩).2.jerk_obs
        = coefC 30 8 0 30 8 0 (15 / 4) 1 * coefB (15 / 4) 1
          / (1 * coefA (15 / 4) ^ 2 + coefB (15 / 4) 1 ^ 2) :=
  lagrange_stationarity (30 : ℚ) 8 0 30 8 0 (15 / 4) 1 1 ⟨0, 0⟩
    (by norm_num [eps]) (by norm_num [computeOptimalJerksCross, eps, abs_lt])

/-- C15 (division safety). The instrumented function computes the same result
as `computeOptimalJerksCross`, and every division it executes has a non-zero
divisor: `C_rhs / B` is executed only with `|B| >= 1e-9`, `(B * B) / w_agent` and
`lambda * B / (2 * w_agent)` only with `w_agent >= 1e-9`, and `2 * C_rhs / denom`
only with `denom >= 1e-9`.  Moreover for `w_agent >= 1e-9` the value
`denom = A^2 + B^2 / w_agent` is non-negative, so the guard `|denom| < 1e-9` is
the same as `denom < 1e-9`. -/
theorem division_safety
    (d_ego v_ego a_ego d_obs v_obs a_obs t_c t_hw w_agent : F) (out : JerkOut F) :
    (computeOptimalJerksCrossTraced d_ego v_ego a_ego d_obs v_obs a_obs t_c t_hw w_agent out).1
      = computeOptimalJerksCross d_ego v_ego a_ego d_obs v_obs a_obs t_c t_hw w_agent out ∧
    (∀ (s : DivSite) (d : F),
      (s, d) ∈ (computeOptimalJerksCrossTraced d_ego v_ego a_ego d_obs v_obs a_obs t_c t_hw w_agent out).2 →
      d ≠ 0) ∧
    (∀ d : F,
      (DivSite.degenerate, d) ∈ (computeOptimalJerksCrossTraced d_ego v_ego a_ego d_obs v_obs a_obs t_c t_hw w_agent out).2 →
      d = coefB t_c t_hw ∧ eps ≤ abs d) ∧
    (∀ d : F,
      (DivSite.denom, d) ∈ (computeOptimalJerksCrossTraced d_ego v_ego a_ego d_obs v_obs a_obs t_c t_hw w_agent out).2 →
      d = w_agent ∧ eps ≤ d) ∧
    (∀ d : F,
      (DivSite.jerkObs, d) ∈ (computeOptimalJerksCrossTraced d_ego v_ego a_ego d_obs v_obs a_obs t_c t_hw w_agent out).2 →
      d = 2 * w_agent ∧ eps ≤ w_agent) ∧
    (∀ d : F,
      (DivSite.lambda, d) ∈ (computeOptimalJerksCrossTraced d_ego v_ego a_ego d_obs v_obs a_obs t_c t_hw w_agent out).2 →
      d = denomOf (coefA t_c) (coefB t_c t_hw) w_agent ∧ eps ≤ d) ∧
    (eps ≤ w_agent →
      0 ≤ denomOf (coefA t_c) (coefB t_c t_hw) w_agent ∧
      (abs (denomOf (coefA t_c) (coefB t_c t_hw) w_agent) < eps ↔ denomOf (coefA t_c) (coefB t_c t_hw) w_agent < eps)) := by
  have hlast : eps ≤ w_agent →
      0 ≤ denomOf (coefA t_c) (coefB t_c t_hw) w_agent ∧
      (abs (denomOf (coefA t_c) (coefB t_c t_hw) w_agent) < eps ↔ denomOf (coefA t_c) (coefB t_c t_hw) w_agent < eps) := by
    intro hw
    have hd := denomOf_nonneg (coefA t_c) (coefB t_c t_hw) (lt_of_lt_of_le eps_pos hw)
    exact ⟨hd, by rw [abs_of_nonneg hd]⟩
  have h2ne : (2 : F) ≠ 0 := two_ne_zero
  have h6ne : (6 : F) ≠ 0 := by norm_num
  rw [traced_eq, compute_eq]
  by_cases h1 : t_c ≤ eps ∨ w_agent < 0
  · rw [if_pos h1, if_pos h1]
    refine ⟨rfl, ?_, ?_, ?_, ?_, ?_, hlast⟩ <;> simp
  · rw [if_neg h1, if_neg h1]
    by_cases h2 : w_agent < eps
    · rw [if_pos h2, if_pos h2]
      by_cases h3 : abs (coefB t_c t_hw) < eps
      · rw [if_pos h3, if_pos h3]
        refine ⟨rfl, ?_, ?_, ?_, ?_, ?_, hlast⟩ <;> simp
      · rw [if_neg h3, if_neg h3]
        have hB : eps ≤ abs (coefB t_c t_hw) := not_lt.mp h3
        refine ⟨rfl, ?_, ?_, ?_, ?_, ?_, hlast⟩
        · intro s d hmem
          simp only [List.mem_cons, Prod.mk.injEq, List.mem_singleton, List.not_mem_nil,
            or_false] at hmem
          rcases hmem with ⟨_, rfl⟩ | ⟨_, rfl⟩
          · exact h6ne
          · exact ne_zero_of_eps_le_abs hB
        · intro d hmem
          simp at hmem
          rw [hmem]
          exact ⟨rfl, hB⟩
        · simp
        · simp
        · simp
    · rw [if_neg h2, if_neg h2]
      have hw : eps ≤ w_agent := not_lt.mp h2
      have hwpos : 0 < w_agent := lt_of_lt_of_le eps_pos hw
      by_cases h3 : abs (denomOf (coefA t_c) (coefB t_c t_hw) w_agent) < eps
      · rw [if_pos h3, if_pos h3]
        refine ⟨rfl, ?_, ?_, ?_, ?_, ?_, hlast⟩
        · intro s d hmem
          simp only [List.mem_cons, Prod.mk.injEq, List.mem_singleton, List.not_mem_nil,
            or_false] at hmem
          rcases hmem with ⟨_, rfl⟩ | ⟨_, rfl⟩
          · exact h6ne
          · exact hwpos.ne.symm
        · simp
        · intro d hmem
          simp at hmem
          rw [hmem]
          exact ⟨rfl, hw⟩
        · simp
        · simp
      · rw [if_neg h3, if_neg h3]
        have hd : eps ≤ denomOf (coefA t_c) (coefB t_c t_hw) w_agent := by
          have h0 := (hlast hw).1
          have h4 := not_lt.mp h3
          rwa [abs_of_nonneg h0] at h4
        refine ⟨rfl, ?_, ?_, ?_, ?_, ?_, hlast⟩
        · intro s d hmem
          simp only [List.mem_cons, Prod.mk.injEq, List.mem_singleton, List.not_mem_nil,
            or_false] at hmem
          rcases hmem with ⟨_, rfl⟩ | ⟨_, rfl⟩ | ⟨_, rfl⟩ | ⟨_, rfl⟩ | ⟨_, rfl⟩
          · exact h6ne
          · exact hwpos.ne.symm
          · exact (lt_of_lt_of_le eps_pos hd).ne.symm
          · exact h2ne
          · exact mul_ne_zero h2ne hwpos.ne.symm
        · simp
        · intro d hmem
          simp at hmem
          rw [hmem]
          exact ⟨rfl, hw⟩
        · intro d hmem
          simp at hmem
          rw [hmem]
          exact ⟨rfl, hw⟩
        · intro d hmem
          simp at hmem
          rw [hmem]
          exact ⟨rfl, hd⟩

/-- C15 at the harness scenario with `w_agent = 1`: the five divisions executed
and their divisors, none of which is zero. -/
theorem division_safety_witness :
    (computeOptimalJerksCrossTraced (30 : ℚ) 8 0 30 8 0 (15 / 4) 1 1 ⟨0, 0⟩).2
      = [(DivSite.gainK, 6), (DivSite.denom, 1), (DivSite.lambda, 2683125 / 8192),
          (DivSite.jerkEgo, 2), (DivSite.jerkObs, 2)] ∧
    ∀ (s : DivSite) (d : ℚ),
      (s, d) ∈ (computeOptimalJerksCrossTraced (30 : ℚ) 8 0 30 8 0 (15 / 4) 1 1 ⟨0, 0⟩).2 →
      d ≠ 0 :=
  ⟨by norm_num [computeOptimalJerksCrossTraced, eps, abs_lt],
    (division_safety (30 : ℚ) 8 0 30 8 0 (15 / 4) 1 1 ⟨0, 0⟩).2.1⟩

/-- C16 (guaranteed success on ordinary inputs). For `t_c >= 1`, `t_hw >= 0` and
`w_agent >= 0` the call returns true; and whenever a degeneracy guard holds,
`|B| < 1e-9`, or `|denom| < 1e-9` with `w_agent >= 1e-9`, the horizon is below one
second or the headway is negative. -/
theorem guaranteed_success
    (d_ego v_ego a_ego d_obs v_obs a_obs t_c t_hw w_agent : F) (out : JerkOut F) :
    (1 ≤ t_c → 0 ≤ t_hw → 0 ≤ w_agent →
      (computeOptimalJerksCross d_ego v_ego a_ego d_obs v_obs a_obs t_c t_hw w_agent out).1
        = true) ∧
    (abs (coefB t_c t_hw) < eps → t_c < 1 ∨ t_hw < 0) ∧
    (eps ≤ w_agent → abs (denomOf (coefA t_c) (coefB t_c t_hw) w_agent) < eps →
      t_c < 1 ∨ t_hw < 0) := by
  have hB : abs (coefB t_c t_hw) < eps → t_c < 1 ∨ t_hw < 0 := by
    intro hlt
    by_contra hcon
    rw [not_or, not_lt, not_lt] at hcon
    have h6 := coefB_ge_sixth hcon.1 hcon.2
    have h7 : coefB t_c t_hw < eps := lt_of_le_of_lt (le_abs_self _) hlt
    have h8 : (eps : F) ≤ 1 / 6 := eps_le_sixth
    linarith
  have hD : eps ≤ w_agent → abs (denomOf (coefA t_c) (coefB t_c t_hw) w_agent) < eps →
      t_c < 1 ∨ t_hw < 0 := by
    intro hw hlt
    by_contra hcon
    rw [not_or, not_lt, not_lt] at hcon
    have h6 := denomOf_ge_thirtysixth (coefB t_c t_hw) hcon.1 (lt_of_lt_of_le eps_pos hw)
    have h7 : denomOf (coefA t_c) (coefB t_c t_hw) w_agent < eps :=
      lt_of_le_of_lt (le_abs_self _) hlt
    have h8 : (eps : F) ≤ 1 / 36 := eps_le_thirtysixth
    linarith
  refine ⟨?_, hB, hD⟩
  intro ht hhw hw
  have hteps : eps < t_c := by
    have h8 : (eps : F) ≤ 1 / 6 := eps_le_sixth
    have h9 : (1 / 6 : F) < 1 := by norm_num
    linarith
  by_contra hne
  have hf : (computeOptimalJerksCross d_ego v_ego a_ego d_obs v_obs a_obs t_c t_hw w_agent out).1
      = false := by
    simpa using hne
  rcases failure_cases _ _ _ _ _ _ _ _ _ _ hteps hw hf with hdeg | hgen
  · rcases hB hdeg.2 with h | h
    · exact absurd ht (not_le.mpr h)
    · exact absurd hhw (not_le.mpr h)
  · rcases hD hgen.1 hgen.2 with h | h
    · exact absurd ht (not_le.mpr h)
    · exact absurd hhw (not_le.mpr h)

/-- C16 at the harness scenario (`t_c = 3.75`, `t_hw = 1`) for the weights `0` and
`1`, and at unit horizon with zero headway and zero weight. -/
theorem guaranteed_success_witness :
    (computeOptimalJerksCross (30 : ℚ) 8 0 30 8 0 (15 / 4) 1 0 ⟨0, 0⟩).1 = true ∧
    (computeOptimalJerksCross (30 : ℚ) 8 0 30 8 0 (15 / 4) 1 1 ⟨0, 0⟩).1 = true ∧
    (computeOptimalJerksCross (-5 : ℚ) 100 (-7) 2 (-50) 9 1 0 0 ⟨0, 0⟩).1 = true :=
  ⟨(guaranteed_success (30 : ℚ) 8 0 30 8 0 (15 / 4) 1 0 ⟨0, 0⟩).1
      (by norm_num) (by norm_num) (by norm_num),
   (guaranteed_success (30 : ℚ) 8 0 30 8 0 (15 / 4) 1 1 ⟨0, 0⟩).1
      (by norm_num) (by norm_num) (by norm_num),
   (guaranteed_success (-5 : ℚ) 100 (-7) 2 (-50) 9 1 0 0 ⟨0, 0⟩).1
      (by norm_num) (by norm_num) (by norm_num)⟩

/-- C17 (direction of the correction). For `t_hw >= 0`, whenever the call returns
true, `jerk_ego * C <= 0`, `jerk_obs * C >= 0` and `jerk_ego * jerk_obs <= 0`; if
`C < 0` then `jerk_ego >= 0` and `jerk_obs <= 0`; if `C > 0` and
`w_agent >= 1e-9` then `jerk_ego < 0` and `jerk_obs > 0`. -/
theorem correction_direction
    (d_ego v_ego a_ego d_obs v_obs a_obs t_c t_hw w_agent : F) (out : JerkOut F)
    (hhw : 0 ≤ t_hw)
    (h : (computeOptimalJerksCross d_ego v_ego a_ego d_obs v_obs a_obs t_c t_hw w_agent out).1
      = true) :
    (computeOptimalJerksCross d_ego v_ego a_ego d_obs v_obs a_obs t_c t_hw w_agent out).2.jerk_ego
        * coefC d_ego v_ego a_ego d_obs v_obs a_obs t_c t_hw ≤ 0 ∧
    0 ≤ (computeOptimalJerksCross d_ego v_ego a_ego d_obs v_obs a_obs t_c t_hw w_agent out).2.jerk_obs
        * coefC d_ego v_ego a_ego d_obs v_obs a_obs t_c t_hw ∧
    (computeOptimalJerksCross d_ego v_ego a_ego d_obs v_obs a_obs t_c t_hw w_agent out).2.jerk_ego
        * (computeOptimalJerksCross d_ego v_ego a_ego d_obs v_obs a_obs t_c t_hw w_agent out).2.jerk_obs
      ≤ 0 ∧
    (coefC d_ego v_ego a_ego d_obs v_obs a_obs t_c t_hw < 0 →
      0 ≤ (computeOptimalJerksCross d_ego v_ego a_ego d_obs v_obs a_obs t_c t_hw w_agent out).2.jerk_ego ∧
      (computeOptimalJerksCross d_ego v_ego a_ego d_obs v_obs a_obs t_c t_hw w_agent out).2.jerk_obs
        ≤ 0) ∧
    (0 < coefC d_ego v_ego a_ego d_obs v_obs a_obs t_c t_hw → eps ≤ w_agent →
      (computeOptimalJerksCross d_ego v_ego a_ego d_obs v_obs a_obs t_c t_hw w_agent out).2.jerk_ego
        < 0 ∧
      0 < (computeOptimalJerksCross d_ego v_ego a_ego d_obs v_obs a_obs t_c t_hw w_agent out).2.jerk_obs) := by
  obtain ⟨k1, k2, hk1, hk2, hk1s, e1, e2⟩ :=
    success_direction d_ego v_ego a_ego d_obs v_obs a_obs t_c t_hw w_agent out hhw h
  rw [e1, e2]
  have hC2 : 0 ≤ coefC d_ego v_ego a_ego d_obs v_obs a_obs t_c t_hw
      * coefC d_ego v_ego a_ego d_obs v_obs a_obs t_c t_hw := mul_self_nonneg _
  refine ⟨?_, ?_, ?_, ?_, ?_⟩
  · nlinarith [mul_nonneg (neg_nonneg.mpr hk1) hC2]
  · nlinarith [mul_nonneg hk2.le hC2]
  · nlinarith [mul_nonneg (mul_nonneg (neg_nonneg.mpr hk1) hk2.le) hC2]
  · intro hC
    constructor
    · nlinarith [mul_nonneg (neg_nonneg.mpr hk1) (neg_nonneg.mpr hC.le)]
    · nlinarith [mul_nonneg hk2.le (neg_nonneg.mpr hC.le)]
  · intro hC hw
    constructor
    · nlinarith [mul_pos (neg_pos.mpr (hk1s hw)) hC]
    · nlinarith [mul_pos hk2 hC]

/-- C17 at the harness scenario with `w_agent = 1`, where `C = -8`: the ego's jerk
is non-negative and the obstacle's non-positive. -/
theorem correction_direction_witness :
    coefC (30 : ℚ) 8 0 30 8 0 (15 / 4) 1 = -8 ∧
    0 ≤ (computeOptimalJerksCross (30 : ℚ) 8 0 30 8 0 (15 / 4) 1 1 ⟨0, 0⟩).2.jerk_ego ∧
    (computeOptimalJerksCross (30 : ℚ) 8 0 30 8 0 (15 / 4) 1 1 ⟨0, 0⟩).2.jerk_obs ≤ 0 :=
  ⟨by norm_num [coefC],
    ((correction_direction (30 : ℚ) 8 0 30 8 0 (15 / 4) 1 1 ⟨0, 0⟩ (by norm_num)
      (by norm_num [computeOptimalJerksCross, eps, abs_lt])).2.2.2.1
      (by norm_num [coefC]))⟩

end Claims

end OptimalJerk
